import Mathlib

/-!
Verification development for `scripts/fetch_stats.py`, a Fediverse
statistics fetcher.  The Python source is shallowly embedded below:
pure helpers become Lean functions over `List Char` / `String`, JSON
values become the inductive `JValue`, the stateful fetch pipeline is
parameterised by a network oracle (`Url → HttpResponse`) and a
decoder oracle standing for charset-decode + `json.loads`.

Modelling conventions (each noted again at the relevant definition):
* machine strings are ASCII in this model: the CPython `idna` codec is
  embedded via its ASCII fast path (`encodings/idna.py`); the
  nameprep/punycode branch for non-ASCII labels is out of scope and is
  mapped to the fallback branch, so theorems about host normalisation
  carry an all-ASCII hypothesis where the distinction could matter;
* Python `int(...)` string parsing is embedded without the underscore
  digit-grouping extension;
* error message strings keep the fixed prefix of the Python message and
  drop interpolated data.
-/

/-- Python-style lowercasing of one ASCII character (`str.lower`). -/
def lowerChar : Char → Char
  | 'A' => 'a' | 'B' => 'b' | 'C' => 'c' | 'D' => 'd' | 'E' => 'e' | 'F' => 'f'
  | 'G' => 'g' | 'H' => 'h' | 'I' => 'i' | 'J' => 'j' | 'K' => 'k' | 'L' => 'l'
  | 'M' => 'm' | 'N' => 'n' | 'O' => 'o' | 'P' => 'p' | 'Q' => 'q' | 'R' => 'r'
  | 'S' => 's' | 'T' => 't' | 'U' => 'u' | 'V' => 'v' | 'W' => 'w' | 'X' => 'x'
  | 'Y' => 'y' | 'Z' => 'z'
  | c => c

/-- `str.lower` over a character list. -/
def lowerL (s : List Char) : List Char := s.map lowerChar

/-- Whitespace characters stripped by Python's `str.strip()` (ASCII range). -/
def isPySpace (c : Char) : Bool :=
  c = ' ' ∨ c = '\t' ∨ c = '\n' ∨ c = '\r' ∨ c = '\x0b' ∨ c = '\x0c'

/-- Python `str.strip()` (no argument): drop whitespace from both ends. -/
def pyStripL (s : List Char) : List Char :=
  ((s.dropWhile isPySpace).reverse.dropWhile isPySpace).reverse

/-- Python `str.rstrip(".")`: drop trailing dots. -/
def rstripDotsL (s : List Char) : List Char :=
  (s.reverse.dropWhile (fun c => c = '.')).reverse

/-- Port-stripping step of `_normalize_host` (fetch_stats.py lines 92-102):
bracketed IPv6 literals are left alone; otherwise, if the part after the
last colon is a nonempty digit string (`str.isdigit`), it is removed. -/
def stripPort (raw : List Char) : List Char :=
  match raw with
  | '[' :: _ => raw
  | _ =>
    if raw.contains ':' then
      let rev := raw.reverse
      let tl := (rev.takeWhile (fun c => c ≠ ':')).reverse
      let hd := ((rev.dropWhile (fun c => c ≠ ':')).drop 1).reverse
      if tl ≠ [] ∧ tl.all Char.isDigit then hd else raw
    else raw

/-- Split a character list on a separator (Python `str.split(sep)` /
CPython `bytes.split`); the result is always nonempty, with empty
fields preserved. -/
def splitOnChar (sep : Char) : List Char → List (List Char)
  | [] => [[]]
  | c :: rest =>
    if c = sep then [] :: splitOnChar sep rest
    else
      match splitOnChar sep rest with
      | [] => [[c]]
      | l :: ls => (c :: l) :: ls

/-- Split on `'.'` (the label split of the `idna` codec). -/
def splitOnDot : List Char → List (List Char) := splitOnChar '.'

/-- CPython's `idna` codec (`encodings/idna.py`, `Codec.encode`), ASCII
fast path: an empty input encodes to itself; an all-ASCII input is
returned unchanged provided every label but the last has length in
(0, 64) and the last label has length < 64; otherwise `UnicodeError`.
The nameprep/punycode branch taken for non-ASCII input is not modelled
(theorems involving normalisation are stated for ASCII inputs). -/
def idnaAscii (host : List Char) : Option (List Char) :=
  if host = [] then some []
  else if host.all (fun c => c.toNat < 128) then
    let labels := splitOnDot host
    if labels.dropLast.all (fun l => 0 < l.length ∧ l.length < 64)
        ∧ (labels.getLastD []).length < 64
    then some host else none
  else none

/-- `_normalize_host` (fetch_stats.py lines 90-106) on character lists:
strip whitespace, strip a trailing numeric port (except for bracketed
literals), IDNA-encode; on success lowercase the encoding and strip
trailing dots, on `Exception` fall back to lowercase + dot-strip. -/
def normalizeHostL (h : List Char) : List Char :=
  let raw := pyStripL h
  let host := stripPort raw
  match idnaAscii host with
  | some enc => rstripDotsL (lowerL enc)
  | none => rstripDotsL (lowerL host)

/-- `_normalize_host` on `String`. -/
def normalize_host (h : String) : String := ⟨normalizeHostL h.toList⟩

/-- `_same_zone` (fetch_stats.py lines 109-122): empty inputs are never
in the same zone; otherwise normalise both and accept equality or a
dot-suffix (subdomain) relationship in either direction. -/
def same_zone (a b : String) : Bool :=
  if a = "" ∨ b = "" then false
  else
    let a' := normalizeHostL a.toList
    let b' := normalizeHostL b.toList
    a' = b' ∨ ('.' :: b').isSuffixOf a' ∨ ('.' :: a').isSuffixOf b'

/-- JSON values as decoded by `json.loads` (numbers modelled as
integers: every numeric payload in the claims is integral). -/
inductive JValue where
  | null : JValue
  | bool : Bool → JValue
  | num : Int → JValue
  | str : String → JValue
  | arr : List JValue → JValue
  | obj : List (String × JValue) → JValue

/-- Python `dict.get(k)` over the association list of a JSON object
(`None`, i.e. `JValue.null`, when the key is absent; JSON objects are
modelled with distinct keys, first match wins). -/
def jGet (kvs : List (String × JValue)) (k : String) : JValue :=
  match kvs.find? (fun p => p.1 = k) with
  | some p => p.2
  | none => .null

/-- Python truthiness of a decoded JSON value. -/
def jTruthy : JValue → Bool
  | .null => false
  | .bool b => b
  | .num n => n ≠ 0
  | .str s => s ≠ ""
  | .arr xs => ¬ xs.isEmpty
  | .obj kvs => ¬ kvs.isEmpty

/-- Decimal digits of a natural number, most significant first (always
nonempty). -/
def natDigits (n : Nat) : List Char :=
  if h : n < 10 then [Char.ofNat (48 + n)]
  else natDigits (n / 10) ++ [Char.ofNat (48 + n % 10)]
decreasing_by
  exact Nat.div_lt_self (Nat.lt_of_lt_of_le (by omega) (Nat.le_of_not_lt h)) (by omega)

/-- Python `str(...)` of an integer. -/
def pyIntToStr (n : Int) : String :=
  if n < 0 then ⟨'-' :: natDigits n.natAbs⟩ else ⟨natDigits n.natAbs⟩

mutual

/-- Python `str(...)` of a decoded JSON value (container escaping is not
reproduced beyond quoting; only nonemptiness of the result matters to
the theorems below). -/
def pyStr : JValue → String
  | .null => "None"
  | .bool b => if b then "True" else "False"
  | .num n => pyIntToStr n
  | .str s => s
  | .arr xs => "[" ++ pyReprList xs ++ "]"
  | .obj kvs => "\x7b" ++ pyReprKVList kvs ++ "\x7d"

/-- Python `repr(...)` of a decoded JSON value (string quoting without
escape handling). -/
def pyRepr : JValue → String
  | .null => "None"
  | .bool b => if b then "True" else "False"
  | .num n => pyIntToStr n
  | .str s => ⟨Char.ofNat 39 :: (s.toList ++ [Char.ofNat 39])⟩
  | .arr xs => "[" ++ pyReprList xs ++ "]"
  | .obj kvs => "\x7b" ++ pyReprKVList kvs ++ "\x7d"

/-- Comma-joined `repr` of list elements. -/
def pyReprList : List JValue → String
  | [] => ""
  | [v] => pyRepr v
  | v :: rest => pyRepr v ++ ", " ++ pyReprList rest

/-- Comma-joined `repr` of dict items. -/
def pyReprKVList : List (String × JValue) → String
  | [] => ""
  | [(k, v)] => pyRepr (.str k) ++ ": " ++ pyRepr v
  | (k, v) :: rest => pyRepr (.str k) ++ ": " ++ pyRepr v ++ ", " ++ pyReprKVList rest

end

/-- Python `int(...)` applied to a string: strip whitespace, optional
sign, then a nonempty run of decimal digits (the underscore
digit-grouping extension is not modelled). -/
def pyIntParse (s : String) : Option Int :=
  let t := pyStripL s.toList
  let core : List Char → Option Int := fun ds =>
    if ds ≠ [] ∧ ds.all Char.isDigit then
      some (Int.ofNat (ds.foldl (fun acc c => acc * 10 + (c.toNat - 48)) 0))
    else none
  match t with
  | '-' :: ds => (core ds).map (fun n => -n)
  | '+' :: ds => core ds
  | ds => core ds

/-- `coerce_int_value` (fetch_stats.py lines 1012-1021): convert a value
with Python `int(...)` (`TypeError`/`ValueError` give `None`), then map
negative results to `None`. -/
def coerce_int_value (v : JValue) : Option Int :=
  let checked : Option Int → Option Int := fun r =>
    match r with
    | some n => if n < 0 then none else some n
    | none => none
  match v with
  | .null => none
  | .bool b => checked (some (if b then 1 else 0))
  | .num n => checked (some n)
  | .str s => checked (pyIntParse s)
  | .arr _ => none
  | .obj _ => none

/-- `coerce_int` (fetch_stats.py lines 1006-1009): `dict.get` then
`coerce_int_value`; non-dict mappings give `None`. -/
def coerce_int (m : JValue) (k : String) : Option Int :=
  match m with
  | .obj kvs => coerce_int_value (jGet kvs k)
  | _ => none

/-- `first_int` (fetch_stats.py lines 998-1003) at its call sites, where
every argument is an `Optional[int]`: return the first value that
`coerce_int_value` accepts. -/
def first_int : List (Option Int) → Option Int
  | [] => none
  | v :: rest =>
    match v with
    | some n => if n < 0 then first_int rest else some n
    | none => first_int rest

/-- `coerce_bool` (fetch_stats.py lines 1024-1031): booleans pass
through; the strings "true"/"True"/"1" and the number 1 map to `True`;
"false"/"False"/"0" and 0 map to `False`; anything else gives `None`. -/
def coerce_bool : JValue → Option Bool
  | .bool b => some b
  | .str s =>
    if s = "true" ∨ s = "True" ∨ s = "1" then some true
    else if s = "false" ∨ s = "False" ∨ s = "0" then some false
    else none
  | .num n =>
    if n = 1 then some true else if n = 0 then some false else none
  | _ => none

/-- The components of a URL that the script consults via
`urllib.parse.urlparse`: scheme, hostname (lowercased, without port or
brackets; `""` when absent) and path. -/
structure Url where
  scheme : String
  host : String
  path : String
deriving DecidableEq

/-- Authority/path split used by `parseUrlString`. -/
def parseUrlRest (scheme rest : String) : Url :=
  let auth := rest.takeWhile (fun c => c ≠ '/')
  let path := rest.drop auth.length
  let hostPart := auth.takeWhile (fun c => c ≠ ':')
  { scheme := scheme, host := ⟨lowerL hostPart.toList⟩, path := path }

/-- `urlparse` on the absolute-URL fragment the script feeds it:
`scheme://host[:port]/path` (no userinfo, query or IPv6 brackets); a
string without an `http`/`https` scheme parses as a bare path with no
hostname, as `urlparse` does. -/
def parseUrlString (s : String) : Url :=
  if s.startsWith "https://" then parseUrlRest "https" (s.drop 8)
  else if s.startsWith "http://" then parseUrlRest "http" (s.drop 7)
  else { scheme := "", host := "", path := s }

/-- `BLOCKED_SUFFIXES` (fetch_stats.py line 43). -/
def BLOCKED_SUFFIXES : List String :=
  [".bin", ".zip", ".tar", ".gz", ".xz", ".bz2", ".7z", ".rar", ".mp4", ".mp3", ".avi"]

/-- `_looks_like_binary` (fetch_stats.py lines 71-73): the lowercased
URL path ends with a blocked suffix. -/
def looks_like_binary (u : Url) : Bool :=
  BLOCKED_SUFFIXES.any (fun suf => suf.toList.isSuffixOf (lowerL u.path.toList))

/-- `_assert_safe_url_relaxed` (fetch_stats.py lines 124-135): reject a
URL whose (stripped) hostname is not in the same zone as
`expected_host`, then reject suspicious binary-looking paths.  The
Python raises `FetchError`; the model returns `Except`. -/
def assert_safe_url_relaxed (u : Url) (expected_host : String) : Except String Unit :=
  let host : String := ⟨pyStripL u.host.toList⟩
  if ¬ same_zone host expected_host then .error "redirected to different host"
  else if looks_like_binary u then .error "suspicious path"
  else .ok ()

/-- `_is_json_ct` (fetch_stats.py lines 83-88): empty content type is
rejected; otherwise the part before `";"`, stripped and lowercased,
must be `application/json` or end in `+json`. -/
def _is_json_ct (content_type : String) : Bool :=
  if content_type = "" then false
  else
    let ct := lowerL (pyStripL (content_type.toList.takeWhile (fun c => c ≠ ';')))
    ct = "application/json".toList ∨ "+json".toList.isSuffixOf ct

/-- `MAX_JSON_BYTES` (fetch_stats.py line 40). -/
def MAX_JSON_BYTES : Nat := 2000000

/-- `MAX_REDIRECTS` (fetch_stats.py line 41). -/
def MAX_REDIRECTS : Nat := 5

/-- One HTTP response as consumed by the urllib branch of
`request_json`: status code, redirect target (the `Location` header
already resolved through `urljoin`), `Content-Type`, the raw
`Content-Length` header if present, and the successive results of
`resp.read(65536)` (an empty chunk means end of stream). -/
structure HttpResponse where
  status : Nat
  location : Option Url
  contentType : String
  contentLength : Option String
  chunks : List (List Nat)

/-- Result of `request_json`: a parsed JSON value or a `FetchError`. -/
inductive FetchOutcome where
  | ok : JValue → FetchOutcome
  | fetchError : String → FetchOutcome

/-- The size-limited body read of `request_json` (fetch_stats.py lines
1176-1183): extend the buffer chunk by chunk, stopping at the first
empty chunk, and fail as soon as the buffer exceeds `MAX_JSON_BYTES` —
before any further chunk is consumed. -/
def readLimited : List (List Nat) → List Nat → Except String (List Nat)
  | [], buf => .ok buf
  | c :: rest, buf =>
    if c.isEmpty then .ok buf
    else
      let buf2 := buf ++ c
      if buf2.length > MAX_JSON_BYTES then .error "payload exceeded limit"
      else readLimited rest buf2

/-- The redirect loop of `request_json` (fetch_stats.py lines 1136-1195,
the urllib branch; the `requests` branch enforces the identical checks
through a mounted adapter).  Arguments: network oracle, decoder oracle
(standing for `_sanitize_charset` + `bytes.decode` + `json.loads`),
optional `expected_host`, remaining hops, current URL, and the list of
URLs already requested.  Returns the outcome together with the full
list of URLs a request was actually sent to. -/
def requestJsonAux (net : Url → HttpResponse) (decodeParse : List Nat → Option JValue)
    (expected_host : Option String) :
    Nat → Url → List Url → FetchOutcome × List Url
  | 0, _, trace => (.fetchError "too many redirects", trace)
  | fuel + 1, current, trace =>
    let check : Url → Except String Unit := fun u =>
      match expected_host with
      | some eh => assert_safe_url_relaxed u eh
      | none => .ok ()
    match check current with
    | .error m => (.fetchError m, trace)
    | .ok _ =>
      let resp := net current
      let trace2 := trace ++ [current]
      if 300 ≤ resp.status ∧ resp.status < 400 then
        match resp.location with
        | none => (.fetchError "redirect without location", trace2)
        | some next =>
          match check next with
          | .error m => (.fetchError m, trace2)
          | .ok _ => requestJsonAux net decodeParse expected_host fuel next trace2
      else if resp.status ≥ 400 then (.fetchError "HTTP status", trace2)
      else if ¬ _is_json_ct resp.contentType then
        (.fetchError "unexpected Content-Type", trace2)
      else
        let pre : Except String Unit :=
          match resp.contentLength with
          | some clen =>
            match pyIntParse clen with
            | some n => if n > (MAX_JSON_BYTES : Int) then .error "payload too large" else .ok ()
            | none => .ok ()
          | none => .ok ()
        match pre with
        | .error m => (.fetchError m, trace2)
        | .ok _ =>
          match readLimited resp.chunks [] with
          | .error m => (.fetchError m, trace2)
          | .ok buf =>
            match decodeParse buf with
            | some v => (.ok v, trace2)
            | none => (.fetchError "Invalid JSON response", trace2)

/-- `request_json` (fetch_stats.py lines 1034-1195): run the redirect
loop for `MAX_REDIRECTS + 1` iterations starting from `url` (the
initial safety check at line 1054 coincides with the first loop-top
check and is collapsed into it). -/
def request_json (net : Url → HttpResponse) (decodeParse : List Nat → Option JValue)
    (expected_host : Option String) (url : Url) : FetchOutcome × List Url :=
  requestJsonAux net decodeParse expected_host (MAX_REDIRECTS + 1) url []

/-- Python `version.replace("nodeinfo", "")`: delete every (left-to-right,
non-overlapping) occurrence of the substring `nodeinfo`. -/
def replaceNodeinfo : List Char → List Char
  | 'n' :: 'o' :: 'd' :: 'e' :: 'i' :: 'n' :: 'f' :: 'o' :: rest => replaceNodeinfo rest
  | [] => []
  | c :: cs => c :: replaceNodeinfo cs

/-- Python `str.strip("/ ")`: drop `'/'` and `' '` from both ends. -/
def stripSlashSpace (s : List Char) : List Char :=
  let p := fun c => c = '/' ∨ c = ' '
  ((s.dropWhile p).reverse.dropWhile p).reverse

/-- `rel.rsplit("/", 1)[-1]` / the last `/`-separated component. -/
def lastSlashComponent (s : String) : String :=
  ⟨(splitOnChar '/' s.toList).getLastD s.toList⟩

/-- The `version` string computed by `version_key` inside
`select_latest_nodeinfo_link` (fetch_stats.py lines 705-713): the last
path component of the string `rel`, else of `href` with trailing
slashes removed, else `""`. -/
def versionString (link : List (String × JValue)) : String :=
  match jGet link "rel" with
  | .str rel => lastSlashComponent rel
  | _ =>
    match jGet link "href" with
    | .str href =>
      lastSlashComponent ⟨(href.toList.reverse.dropWhile (fun c => c = '/')).reverse⟩
    | _ => ""

/-- `version_key` (fetch_stats.py lines 705-724): strip the literal
`nodeinfo`, slashes and spaces from the version string, split on `"."`
and parse the first two components with `int(...)`; any failure (or a
missing component) yields `(0, 0)`. -/
def version_key (link : List (String × JValue)) : Int × Int :=
  let version := versionString link
  if version = "" then (0, 0)
  else
    let parts : List Char := stripSlashSpace (replaceNodeinfo version.toList)
    match splitOnChar '.' parts with
    | a :: b :: _ =>
      match pyIntParse ⟨a⟩, pyIntParse ⟨b⟩ with
      | some ma, some mb => (ma, mb)
      | _, _ => (0, 0)
    | _ => (0, 0)

/-- Strict lexicographic comparison of Python `(major, minor)` tuples. -/
def verLt (a b : Int × Int) : Bool :=
  a.1 < b.1 ∨ (a.1 = b.1 ∧ a.2 < b.2)

/-- The candidate list of `select_latest_nodeinfo_link` (fetch_stats.py
line 726): the `dict` entries of `links`. -/
def linkCandidates (links : List JValue) : List (List (String × JValue)) :=
  links.filterMap (fun l =>
    match l with
    | .obj kvs => some kvs
    | _ => none)

/-- `select_latest_nodeinfo_link` (fetch_stats.py lines 704-729): return
Python's `max(candidates, key=version_key)` — the first candidate whose
key is maximal — or `None` when there is no dict entry. -/
def select_latest_nodeinfo_link (links : List JValue) : Option (List (String × JValue)) :=
  match linkCandidates links with
  | [] => none
  | c :: cs =>
    some (cs.foldl (fun best l => if verLt (version_key best) (version_key l) then l else best) c)

/-- One scheme attempt of `fetch_nodeinfo` (fetch_stats.py lines
668-699): fetch the `.well-known/nodeinfo` index, pick the newest link,
check it against the expected host before requesting it, derive the
canonical base from its scheme and (normalised) hostname, and fetch the
nodeinfo document.  The second component lists every URL a request was
sent to. -/
def fetchNodeinfoAttempt (net : Url → HttpResponse) (decodeParse : List Nat → Option JValue)
    (expected : String) (scheme : String) :
    Except String (List (String × JValue) × Url) × List Url :=
  let indexUrl : Url := { scheme := scheme, host := expected, path := "/.well-known/nodeinfo" }
  match request_json net decodeParse (some expected) indexUrl with
  | (.fetchError m, tr) => (.error m, tr)
  | (.ok payload, tr) =>
    match payload with
    | .obj kvs =>
      match jGet kvs "links" with
      | .arr ls =>
        match select_latest_nodeinfo_link ls with
        | none => (.error "no valid nodeinfo links", tr)
        | some best =>
          match jGet best "href" with
          | .str href =>
            if href = "" then (.error "nodeinfo link missing href", tr)
            else
              let hrefUrl := parseUrlString href
              match assert_safe_url_relaxed hrefUrl expected with
              | .error m => (.error m, tr)
              | .ok _ =>
                let canonHost := normalize_host (if hrefUrl.host = "" then expected else hrefUrl.host)
                let canonScheme := if hrefUrl.scheme = "" then "https" else hrefUrl.scheme
                let canonBase : Url := { scheme := canonScheme, host := canonHost, path := "" }
                match request_json net decodeParse (some expected) hrefUrl with
                | (.fetchError m, tr2) => (.error m, tr ++ tr2)
                | (.ok doc, tr2) =>
                  match doc with
                  | .obj dkvs => (.ok (dkvs, canonBase), tr ++ tr2)
                  | _ => (.error "unexpected nodeinfo document", tr ++ tr2)
          | _ => (.error "nodeinfo link missing href", tr)
      | .str _ =>
        -- a JSON string is a Python `Sequence` whose elements are never dicts
        (.error "no valid nodeinfo links", tr)
      | _ => (.error "nodeinfo index missing links", tr)
    | _ => (.error "unexpected nodeinfo index payload", tr)

/-- `fetch_nodeinfo` (fetch_stats.py lines 665-702): try `https` then
`http`, returning the first success or the last error, together with
the list of all URLs requested across both attempts. -/
def fetch_nodeinfo (net : Url → HttpResponse) (decodeParse : List Nat → Option JValue)
    (host : String) : Except String (List (String × JValue) × Url) × List Url :=
  let expected := normalize_host host
  match fetchNodeinfoAttempt net decodeParse expected "https" with
  | (.ok res, tr) => (.ok res, tr)
  | (.error _, tr1) =>
    match fetchNodeinfoAttempt net decodeParse expected "http" with
    | (.ok res, tr2) => (.ok res, tr1 ++ tr2)
    | (.error m2, tr2) => (.error m2, tr1 ++ tr2)

/-- Lift the `Optional[int]` values that the script passes to
`update_numeric` / `coerce_int_value` back into Python values. -/
def optJ : Option Int → JValue
  | none => .null
  | some n => .num n

/-- Python substring containment (`pat in s`). -/
def listContainsSub (pat : List Char) : List Char → Bool
  | [] => pat.isEmpty
  | c :: cs => pat.isPrefixOf (c :: cs) || listContainsSub pat cs

/-- The common adapter shape returned by `fetch_mastodon` /
`fetch_misskey`: the `software` sub-dict, the raw `open_registrations`
value, the three coerced counters, and the languages value.  The
advisory `peers` output is not modelled (no claim depends on it). -/
structure PlatformData where
  software : JValue
  open_registrations : JValue
  users_total : Option Int
  users_active_month : Option Int
  statuses : Option Int
  languages : JValue

/-- The payload-parsing part of `fetch_misskey` (fetch_stats.py lines
805-837), applied to the decoded `/api/meta` dict: software name falls
back to `"misskey"`, `open_registrations` is `disableRegistration is
False`, and each counter prefers the "original" variant, with
`users_active_month` falling back from `monthlyActiveUsers` to
`activeUsers`. -/
def fetch_misskey_parse (payload : List (String × JValue)) : PlatformData :=
  let stats := jGet payload "stats"
  { software := .obj
      [("name", if jTruthy (jGet payload "softwareName")
                then jGet payload "softwareName" else .str "misskey"),
       ("version", jGet payload "version")]
    open_registrations := .bool (match jGet payload "disableRegistration" with
      | .bool b => ¬ b
      | _ => false)
    users_total := first_int
      [coerce_int stats "originalUsersCount", coerce_int stats "usersCount"]
    users_active_month := first_int
      [coerce_int stats "monthlyActiveUsers", coerce_int stats "activeUsers"]
    statuses := first_int
      [coerce_int stats "originalNotesCount", coerce_int stats "notesCount"]
    languages := .arr [] }

/-- The `StatsRecord` dict built by `process_instance` (fetch_stats.py
lines 557-567), restricted to the fields the claims are about; the
`software` sub-dict is flattened into its two keys, and
`languages_detected` keeps the first-seen-order language codes. -/
structure StatsRecord where
  host : String
  verified_activitypub : Bool
  software_name : Option String
  software_version : Option String
  open_registrations : Option Bool
  users_total : Option Int
  users_active_month : Option Int
  statuses : Option Int
  languages_detected : List String
  fetched_at : String
  redirected_from : Option String
deriving DecidableEq

/-- Truthiness of `target.get(k)` for the software sub-dict: a missing
key or an empty string is falsy. -/
def optTruthy : Option String → Bool
  | none => false
  | some s => s ≠ ""

/-- `update_software` (fetch_stats.py lines 905-917): for `name` and
`version` independently, write `str(value)` only when the incoming
value is truthy and the field is not already truthy; non-dict input is
ignored. -/
def update_software (r : StatsRecord) (software : JValue) : StatsRecord :=
  match software with
  | .obj kvs =>
    let name := jGet kvs "name"
    let version := jGet kvs "version"
    let r1 := if jTruthy name ∧ ¬ optTruthy r.software_name
              then { r with software_name := some (pyStr name) } else r
    if jTruthy version ∧ ¬ optTruthy r1.software_version
    then { r1 with software_version := some (pyStr version) } else r1
  | _ => r

/-- `update_open_registrations` (fetch_stats.py lines 920-925): coerce
to a boolean and write it only when the field is still `None`. -/
def update_open_registrations (r : StatsRecord) (value : JValue) : StatsRecord :=
  match coerce_bool value with
  | none => r
  | some b =>
    if r.open_registrations = none then { r with open_registrations := some b } else r

/-- `update_numeric` (fetch_stats.py lines 928-933) for one numeric
field: coerce the value and write it only when the field is still
`None`; the caller plugs the result into the right record field. -/
def update_numeric (cur : Option Int) (value : JValue) : Option Int :=
  match coerce_int_value value with
  | none => cur
  | some n => match cur with
    | none => some n
    | some _ => cur

/-- `normalize_language_code` (fetch_stats.py lines 989-995):
`str(value).strip().lower()`, with `None` for `None` input or an
all-whitespace string. -/
def normalize_language_code (v : JValue) : Option String :=
  match v with
  | .null => none
  | _ =>
    let text := pyStripL (pyStr v).toList
    if text.isEmpty then none else some ⟨lowerL text⟩

/-- `append_languages` (fetch_stats.py lines 936-950): iterate a dict's
values, a string as a one-element list, or a JSON array; append each
normalised language code not seen yet.  State is (target, seen). -/
def append_languages (st : List String × List String) (values : JValue) :
    List String × List String :=
  let items : Option (List JValue) :=
    match values with
    | .obj kvs => some (kvs.map (fun p => p.2))
    | .str s => some [.str s]
    | .arr xs => some xs
    | _ => none
  match items with
  | none => st
  | some xs =>
    xs.foldl (fun st v =>
      match normalize_language_code v with
      | none => st
      | some code =>
        if st.2.contains code then st
        else (st.1 ++ [code], st.2 ++ [code])) st

/-- The `Instance` dataclass (fetch_stats.py lines 51-56). -/
structure Instance where
  name : String
  host : String
  url : String
  platform : String

/-- The canonical-base value computed by `fetch_nodeinfo` is carried as
a `Url` with empty path. -/
abbrev CanonBase := Url

/-- The fresh per-pass record built at the top of `process_instance`
(fetch_stats.py lines 557-567). -/
def freshRecord (inst : Instance) (timestamp : String) : StatsRecord :=
  { host := inst.host
    verified_activitypub := false
    software_name := none
    software_version := none
    open_registrations := none
    users_total := none
    users_active_month := none
    statuses := none
    languages_detected := []
    fetched_at := timestamp
    redirected_from := none }

/-- The `if nodeinfo:` body of `process_instance` (fetch_stats.py lines
580-592): set the verification flag and merge software, open
registrations, the three counters and the usage languages out of the
document.  Python dict truthiness makes an empty payload a no-op.
Returns the record and the language (target, seen) state. -/
def nodeinfoMerge (r0 : StatsRecord) (doc : List (String × JValue)) :
    StatsRecord × (List String × List String) :=
  if (doc.isEmpty : Bool) then (r0, ([], []))
  else
    let ra := { r0 with verified_activitypub := true }
    let rb := update_software ra (jGet doc "software")
    let rc := update_open_registrations rb (jGet doc "openRegistrations")
    let usage := jGet doc "usage"
    let users := match usage with
      | .obj ukvs => jGet ukvs "users"
      | _ => .null
    let usersTotal := match users with
      | .obj uk => coerce_int_value (jGet uk "total")
      | _ => none
    let usersActive := match users with
      | .obj uk => coerce_int_value (jGet uk "activeMonth")
      | _ => none
    let localPosts := match usage with
      | .obj uk => coerce_int_value (jGet uk "localPosts")
      | _ => none
    let rd := { rc with users_total := update_numeric rc.users_total (optJ usersTotal) }
    let re := { rd with users_active_month := update_numeric rd.users_active_month (optJ usersActive) }
    let rf := { re with statuses := update_numeric re.statuses (optJ localPosts) }
    let langs := append_languages ([], []) (match usage with
      | .obj uk => jGet uk "languages"
      | _ => .null)
    (rf, langs)

/-- The canonical-host rewrite of `process_instance` (fetch_stats.py
lines 597-607): when NodeInfo produced a canonical base whose
normalised host is nonempty and in the same zone as the input host, the
record's host is rewritten; if it differs, `redirected_from` is set and
an alias registration is requested. -/
def canonRewrite (inst : Instance) (canonical_base : Option CanonBase) (r1 : StatsRecord) :
    StatsRecord × Option (String × String) :=
  match canonical_base with
  | some base =>
    let canonHost := normalize_host ⟨lowerL base.host.toList⟩
    if canonHost ≠ "" ∧ same_zone canonHost (normalize_host inst.host) then
      if canonHost ≠ normalize_host inst.host then
        ({ r1 with redirected_from := some inst.host, host := canonHost },
         some (inst.host, canonHost))
      else ({ r1 with host := canonHost }, none)
    else (r1, none)
  | none => (r1, none)

/-- The NodeInfo half of `process_instance` (fetch_stats.py lines
557-607): fresh record, NodeInfo merge on success (with a `nodeinfo:`
error recorded on failure), then the canonical-host rewrite.  Returns
(record, errors, language state, alias request, canonical base). -/
def nodeinfo_stage (inst : Instance) (timestamp : String)
    (nodeinfoRes : Except String (List (String × JValue) × CanonBase)) :
    StatsRecord × List String × (List String × List String) ×
      Option (String × String) × Option CanonBase :=
  let r0 := freshRecord inst timestamp
  match nodeinfoRes with
  | .error e => (r0, ["nodeinfo: " ++ e], ([], []), none, none)
  | .ok (doc, base) =>
    let m := nodeinfoMerge r0 doc
    let c := canonRewrite inst (some base) m.1
    (c.1, [], m.2, c.2, some base)

/-- The platform inference of `process_instance` (fetch_stats.py lines
612-618): an `unknown` input platform is replaced by `mastodon` /
`misskey` when the detected software name contains a known fork name. -/
def inferPlatform (inst : Instance) (r1 : StatsRecord) : String :=
  if inst.platform = "unknown" ∧ optTruthy r1.software_name then
    let detected : String := ⟨lowerL ((r1.software_name.getD "").toList)⟩
    if listContainsSub "mastodon".toList detected.toList
        || listContainsSub "hometown".toList detected.toList
        || listContainsSub "glitch".toList detected.toList then "mastodon"
    else if listContainsSub "misskey".toList detected.toList
        || listContainsSub "calckey".toList detected.toList
        || listContainsSub "firefish".toList detected.toList then "misskey"
    else inst.platform
  else inst.platform

/-- The `if platform_data:` body of `process_instance` (fetch_stats.py
lines 637-644): merge the adapter's fields with the same
first-writer-wins updates, and extend the language state. -/
def platformMerge (st : StatsRecord × (List String × List String)) (d : PlatformData) :
    StatsRecord × (List String × List String) :=
  let ra := update_software st.1 d.software
  let rb := update_open_registrations ra d.open_registrations
  let rc := { rb with users_total := update_numeric rb.users_total (optJ d.users_total) }
  let rd := { rc with users_active_month := update_numeric rc.users_active_month (optJ d.users_active_month) }
  let re := { rd with statuses := update_numeric rd.statuses (optJ d.statuses) }
  (re, append_languages st.2 d.languages)

/-- The platform half of `process_instance` (fetch_stats.py lines
609-647): infer the platform, consult the corresponding adapter result
(standing for `fetch_mastodon` / `fetch_misskey` on the canonical
base), merge on success, and store the accumulated languages in the
record (line 646). -/
def platform_stage (inst : Instance)
    (mastodonRes misskeyRes : Except String PlatformData)
    (mid : StatsRecord × List String × (List String × List String)) :
    StatsRecord × List String :=
  let r1 := mid.1
  let errors := mid.2.1
  let langs0 := mid.2.2
  let platform := inferPlatform inst r1
  let (platform_data, errors2, r2) :
      Option PlatformData × List String × StatsRecord :=
    if platform = "mastodon" then
      match mastodonRes with
      | .error e => (none, errors ++ ["mastodon: " ++ e], r1)
      | .ok d => (some d, errors, { r1 with verified_activitypub := true })
    else if platform = "misskey" then
      match misskeyRes with
      | .error e => (none, errors ++ ["misskey: " ++ e], r1)
      | .ok d => (some d, errors, { r1 with verified_activitypub := true })
    else if platform ≠ "unknown" then
      (none, errors ++ ["unsupported platform: " ++ platform], r1)
    else (none, errors, r1)
  match platform_data with
  | none => ({ r2 with languages_detected := langs0.1 }, errors2)
  | some d =>
    let m := platformMerge (r2, langs0) d
    ({ m.1 with languages_detected := m.2.1 }, errors2)

/-- `process_instance` (fetch_stats.py lines 556-647) with the three
network fetches supplied as oracles; returns the assembled record and
the per-stage error list (the alias request and canonical base are
surfaced by `nodeinfo_stage`). -/
def process_instance (inst : Instance) (timestamp : String)
    (nodeinfoRes : Except String (List (String × JValue) × CanonBase))
    (mastodonRes misskeyRes : Except String PlatformData) :
    StatsRecord × List String :=
  let s := nodeinfo_stage inst timestamp nodeinfoRes
  platform_stage inst mastodonRes misskeyRes (s.1, s.2.1, s.2.2.1)

/-- `is_anomalous` (fetch_stats.py lines 390-411): negative counters are
anomalous; so is `statuses / users_total > 50000` when both counters
are truthy and `users_total` is positive.

The comparison is CPython float true division: `s / u` is the exact
rational correctly rounded to binary64 (round to nearest, ties to
even).  `50000` lies in the binade `[2^15, 2^16)`, so its unit in the
last place is `2^-37`, the next double above it is `50000 + 2^-37`,
and the midpoint `50000 + 2^-38` has its tie between the significand
`50000 * 2^37` (even) and its successor (odd), hence rounds down to
`50000.0`.  Therefore, for `u > 0`, `float(s / u) > 50000.0` holds
exactly when `s / u > 50000 + 2^-38` as rationals, i.e. when
`(50000 * 2^38 + 1) * u < s * 2^38`; the numerals below are
`50000 * 2^38 + 1 = 13743895347200001` and `2^38 = 274877906944`.
(A quotient so large that the division raises `OverflowError` is
caught by the `except` and is anomalous both in the program and under
this inequality.) -/
def is_anomalous (r : StatsRecord) : Bool :=
  let u := r.users_total
  let s := r.statuses
  let am := r.users_active_month
  if (match u with | some n => n < 0 | none => false : Bool) then true
  else if (match s with | some n => n < 0 | none => false : Bool) then true
  else if (match am with | some n => n < 0 | none => false : Bool) then true
  else
    match u, s with
    | some un, some sn =>
      if un ≠ 0 ∧ sn ≠ 0 ∧ un > 0 ∧ 13743895347200001 * un < sn * 274877906944
      then true else false
    | _, _ => false

/-- `classify_record` (fetch_stats.py lines 414-430): `"bad"` unless the
record is verified, error-free, non-anomalous, and carries at least one
of the three metrics. -/
def classify_record (r : StatsRecord) (had_errors : Bool) : String :=
  if ¬ r.verified_activitypub then "bad"
  else if had_errors then "bad"
  else if is_anomalous r then "bad"
  else if r.users_total ≠ none ∨ r.users_active_month ≠ none ∨ r.statuses ≠ none
  then "good"
  else "bad"

/-- Python dict assignment `m[k] = v` on an insertion-ordered
association list: overwrite in place, else append. -/
def dictSet (m : List (String × StatsRecord)) (k : String) (v : StatsRecord) :
    List (String × StatsRecord) :=
  if m.any (fun p => p.1 = k) then
    m.map (fun p => if p.1 = k then (k, v) else p)
  else m ++ [(k, v)]

/-- The per-host bucket update of `main` (fetch_stats.py lines 186-207):
upsert the record into the bucket named by its classification, leaving
the other bucket untouched; `save_stats_pair_atomic` then persists both
maps unchanged. -/
def main_step (ok_map bad_map : List (String × StatsRecord))
    (record : StatsRecord) (had_errors : Bool) :
    List (String × StatsRecord) × List (String × StatsRecord) :=
  if classify_record record had_errors = "good" then
    (dictSet ok_map record.host record, bad_map)
  else
    (ok_map, dictSet bad_map record.host record)

/-- Insertion into a host-sorted record list (helper for
`save_stats_pair_atomic`). -/
def insertByHost (r : StatsRecord) : List StatsRecord → List StatsRecord
  | [] => [r]
  | x :: xs => if r.host ≤ x.host then r :: x :: xs else x :: insertByHost r xs

/-- The serialisation order of `save_stats_pair_atomic` (fetch_stats.py
lines 331-346): each bucket's values sorted by host (the atomic
temp-file/rename mechanics are I/O and are not modelled). -/
def save_stats_pair (m : List (String × StatsRecord)) : List StatsRecord :=
  (m.map (fun p => p.2)).foldr insertByHost []

/-- `register_alias` (fetch_stats.py lines 278-292) over an explicit
alias map (the Python loads it from and saves it to disk): normalise
both hosts; record nothing when either is empty, they coincide, they
are not in the same zone, or the identical mapping already exists;
otherwise return the updated, saved map.  `none` means no save. -/
def register_alias (aliases : List (String × String))
    (original_host canonical_host : String) : Option (List (String × String)) :=
  let o := normalize_host original_host
  let c := normalize_host canonical_host
  if o = "" ∨ c = "" ∨ o = c then none
  else if ¬ same_zone o c then none
  else if (aliases.find? (fun p => p.1 = o)).map (fun p => p.2) = some c then none
  else if aliases.any (fun p => p.1 = o) then
    some (aliases.map (fun p => if p.1 = o then (o, c) else p))
  else some (aliases ++ [(o, c)])

/-! ### Helper lemmas -/

/-- Record of the C4 boundary example: verified, error-free,
`users_total = 10`, `statuses = 600000`. -/
def recRatioHigh : StatsRecord :=
  { host := "h.example", verified_activitypub := true, software_name := none,
    software_version := none, open_registrations := none, users_total := some 10,
    users_active_month := none, statuses := some 600000, languages_detected := [],
    fetched_at := "t", redirected_from := none }

/-- The same record with `statuses = 400000`. -/
def recRatioLow : StatsRecord := { recRatioHigh with statuses := some 400000 }

/-- Misskey `/api/meta` payload whose stats carry a weekly-active count
of 7 and a generic active count of 3 but no monthly count. -/
def misskeyPayloadWeekly : List (String × JValue) :=
  [("stats", .obj [("weeklyActiveUsers", .num 7), ("activeUsers", .num 3)])]

/-- Host-key membership in a bucket map. -/
def hasHost (m : List (String × StatsRecord)) (h : String) : Bool :=
  m.any (fun p => p.1 = h)

/-- A good record for `h.example` as left by a previous pass. -/
def recPrevGood : StatsRecord :=
  { host := "h.example", verified_activitypub := true, software_name := none,
    software_version := none, open_registrations := none, users_total := some 5,
    users_active_month := none, statuses := none, languages_detected := [],
    fetched_at := "t0", redirected_from := none }

/-- A reprocessed record for the same host that now classifies bad. -/
def recNowBad : StatsRecord :=
  { recPrevGood with verified_activitypub := false, fetched_at := "t1" }

/-- The `nodeinfo/2.0` example link. -/
def linkV20 : List (String × JValue) :=
  [("rel", .str "http://ni.example/schema/nodeinfo/2.0"),
   ("href", .str "https://host.example/nodeinfo/2.0")]

/-- The `nodeinfo/2.1` example link. -/
def linkV21 : List (String × JValue) :=
  [("rel", .str "http://ni.example/schema/nodeinfo/2.1"),
   ("href", .str "https://host.example/nodeinfo/2.1")]

/-- The malformed `nodeinfo/x.y` example link. -/
def linkVxy : List (String × JValue) :=
  [("rel", .str "http://ni.example/schema/nodeinfo/x.y"),
   ("href", .str "https://host.example/nodeinfo/x.y")]

/-- Both software strings, when populated, are nonempty (true of every
record `process_instance` builds, since `update_software` only writes
`str(...)` of truthy values). -/
def swInv (r : StatsRecord) : Prop :=
  (∀ s, r.software_name = some s → s ≠ "") ∧
  (∀ s, r.software_version = some s → s ≠ "")

/-- All three counters, when populated, are non-negative. -/
def countersNonneg (r : StatsRecord) : Prop :=
  (∀ n, r.users_total = some n → 0 ≤ n) ∧
  (∀ n, r.users_active_month = some n → 0 ≤ n) ∧
  (∀ n, r.statuses = some n → 0 ≤ n)

/-- NodeInfo document supplying `users.total = 100` for the C3 example. -/
def niDoc100 : List (String × JValue) :=
  [("software", .obj [("name", .str "mastodon"), ("version", .str "4.0")]),
   ("usage", .obj [("users", .obj [("total", .num 100)])])]

/-- Canonical base for the C3 example. -/
def cbC3 : CanonBase := { scheme := "https", host := "h.example", path := "" }

/-- Platform-adapter data supplying `users_total = 200` for the C3
example. -/
def mastoData200 : PlatformData :=
  { software := .obj [("name", .str "mastodon"), ("version", .str "4.1")],
    open_registrations := .bool true, users_total := some 200,
    users_active_month := some 5, statuses := some 7, languages := .arr [] }

/-- Input instance for the C3 example. -/
def instMasto : Instance :=
  { name := "h", host := "h.example", url := "https://h.example", platform := "mastodon" }

/-- The bytes the urllib read loop consumes: concatenation of the
chunks before the first empty (end-of-stream) chunk. -/
def readPrefix : List (List Nat) → List Nat
  | [] => []
  | c :: rest => if c.isEmpty then [] else c ++ readPrefix rest

/-- A terminal JSON response declaring a 3,000,000-byte body. -/
def respBigDeclared : HttpResponse :=
  { status := 200, location := none, contentType := "application/json",
    contentLength := some "3000000", chunks := [] }

/-- A network oracle answering every request with `respBigDeclared`. -/
def netBig : Url → HttpResponse := fun _ => respBigDeclared

/-- A decoder oracle that always fails. -/
def dpNone : List Nat → Option JValue := fun _ => none

/-- A sample URL. -/
def urlSample : Url := { scheme := "https", host := "h.example", path := "/x" }

/-- A URL outside the zone of `example.org`. -/
def urlEvil : Url := { scheme := "https", host := "evil.com", path := "/" }

theorem coerce_int_value_nonneg (v : JValue) (n : Int)
    (h : coerce_int_value v = some n) : 0 ≤ n := by
  cases v <;> simp only [coerce_int_value] at h
  · exact absurd h (by simp)
  · split at h <;> simp_all <;> omega
  · split at h <;> simp_all <;> omega
  · rcases hp : pyIntParse _ with _ | m <;> rw [hp] at h
    · simp at h
    · split at h <;> simp_all <;> omega
  · exact absurd h (by simp)
  · exact absurd h (by simp)

theorem coerce_int_nonneg (m : JValue) (k : String) (n : Int)
    (h : coerce_int m k = some n) : 0 ≤ n := by
  cases m <;> simp only [coerce_int] at h <;> try exact absurd h (by simp)
  exact coerce_int_value_nonneg _ _ h

theorem update_numeric_some (n : Int) (v : JValue) :
    update_numeric (some n) v = some n := by
  unfold update_numeric
  cases coerce_int_value v <;> rfl

theorem update_numeric_nonneg (cur : Option Int) (v : JValue)
    (hcur : ∀ m, cur = some m → 0 ≤ m) (n : Int)
    (h : update_numeric cur v = some n) : 0 ≤ n := by
  unfold update_numeric at h
  rcases hc : coerce_int_value v with _ | m <;> rw [hc] at h
  · exact hcur n h
  · rcases cur with _ | k
    · cases h
      exact coerce_int_value_nonneg _ _ hc
    · exact hcur n h

theorem is_anomalous_iff (r : StatsRecord) :
    is_anomalous r = true ↔
      ((∃ n, r.users_total = some n ∧ n < 0) ∨
       (∃ n, r.statuses = some n ∧ n < 0) ∨
       (∃ n, r.users_active_month = some n ∧ n < 0) ∨
       (∃ u s, r.users_total = some u ∧ r.statuses = some s ∧
          0 < u ∧ 0 < s ∧ 13743895347200001 * u < s * 274877906944)) := by
  unfold is_anomalous
  rcases hu : r.users_total with _ | u <;>
    rcases hs : r.statuses with _ | s <;>
    rcases ham : r.users_active_month with _ | am <;>
    simp only [hu, hs, ham] <;> simp <;> omega

/-- C4: `classify_record` returns `"bad"` exactly when the record is
unverified, or errors occurred, or it is anomalous (a negative counter,
or `statuses / users_total > 50000` with both positive — the ratio
test being CPython's correctly-rounded binary64 division, which for
`0 < u` exceeds `50000.0` exactly when
`(50000 * 2^38 + 1) * u < s * 2^38`, the midpoint `50000 + 2^-38`
rounding down to even), or none of the three counters is populated —
and `"good"` otherwise; in particular the verified, error-free record
with `users_total = 10` classifies `"bad"` at `statuses = 600000` and
`"good"` at `statuses = 400000`. -/
theorem C4_classify_record_characterisation :
    (∀ (r : StatsRecord) (he : Bool),
      (classify_record r he = "bad" ↔
        (r.verified_activitypub = false ∨ he = true ∨
          (∃ n, r.users_total = some n ∧ n < 0) ∨
          (∃ n, r.statuses = some n ∧ n < 0) ∨
          (∃ n, r.users_active_month = some n ∧ n < 0) ∨
          (∃ u s, r.users_total = some u ∧ r.statuses = some s ∧
            0 < u ∧ 0 < s ∧ 13743895347200001 * u < s * 274877906944) ∨
          (r.users_total = none ∧ r.users_active_month = none ∧ r.statuses = none)))
      ∧ (classify_record r he = "bad" ∨ classify_record r he = "good"))
    ∧ classify_record recRatioHigh false = "bad"
    ∧ classify_record recRatioLow false = "good" := by
  refine ⟨fun r he => ⟨?_, ?_⟩, by decide, by decide⟩
  · rcases hv : r.verified_activitypub with _ | _
    · simp [classify_record, hv]
    · rcases hhe : he with _ | _
      · rcases ha : is_anomalous r with _ | _
        · have han := (is_anomalous_iff r)
          rw [ha] at han
          simp only [Bool.false_eq_true, false_iff] at han
          unfold classify_record
          rw [hv, ha]
          simp only [eq_self_iff_true, not_true, Bool.false_eq_true, if_false]
          constructor
          · intro hbad
            by_cases hm : (r.users_total ≠ none ∨ r.users_active_month ≠ none ∨ r.statuses ≠ none)
            · rw [if_pos hm] at hbad
              exact absurd hbad (by decide)
            · push_neg at hm
              exact Or.inr (Or.inr (Or.inr (Or.inr (Or.inr (Or.inr hm)))))
          · rintro (h | h | h | h | h | h | h)
            · exact absurd h (by decide)
            · exact absurd h (by decide)
            · exact absurd (Or.inl h) han
            · exact absurd (Or.inr (Or.inl h)) han
            · exact absurd (Or.inr (Or.inr (Or.inl h))) han
            · exact absurd (Or.inr (Or.inr (Or.inr h))) han
            · rw [if_neg (by simp [h.1, h.2.1, h.2.2])]
        · have han := (is_anomalous_iff r).mp ha
          simp [classify_record, hv, hhe, ha]
          rcases han with h | h | h | h
          · exact Or.inl h
          · exact Or.inr (Or.inl h)
          · exact Or.inr (Or.inr (Or.inl h))
          · obtain ⟨u, s, h1, h2, h3, h4, h5⟩ := h
            exact Or.inr (Or.inr (Or.inr (Or.inl ⟨u, h1, s, h2, h3, h4, h5⟩)))
      · simp [classify_record, hv, hhe]
  · unfold classify_record
    split_ifs <;> simp

theorem first_int_pair (a b : Option Int)
    (ha : ∀ n, a = some n → 0 ≤ n) (hb : ∀ n, b = some n → 0 ≤ n) :
    first_int [a, b] = a.or b := by
  cases a with
  | some m =>
    have hm := ha m rfl
    simp only [first_int]
    rw [if_neg (by omega)]
    rfl
  | none =>
    cases b with
    | some k =>
      have hk := hb k rfl
      simp only [first_int]
      rw [if_neg (by omega)]
      rfl
    | none => rfl

/-- C8 (counterexample): on a payload with `weeklyActiveUsers = 7` and
`activeUsers = 3`, the Misskey adapter reports 3 — the generic alias —
not the weekly value 7 that a monthly→weekly→daily→generic fallback
would select: there is no weekly/daily fallback in the code. -/
theorem C8_counterexample :
    (fetch_misskey_parse misskeyPayloadWeekly).users_active_month = some 3 ∧
    ¬ (fetch_misskey_parse misskeyPayloadWeekly).users_active_month = some 7 := by
  constructor
  · rfl
  · intro h
    cases h

/-- C8 (amended): the Misskey adapter computes `users_active_month` by
falling back through exactly two aliases — `monthlyActiveUsers` then
`activeUsers`; the weekly- and daily-active fields are never
consulted. -/
theorem C8_misskey_active_users_amended :
    (∀ payload : List (String × JValue),
      (fetch_misskey_parse payload).users_active_month =
        Option.or (coerce_int (jGet payload "stats") "monthlyActiveUsers")
          (coerce_int (jGet payload "stats") "activeUsers"))
    ∧ (∀ kvs : List (String × JValue),
        jGet kvs "monthlyActiveUsers" = .null →
        jGet kvs "activeUsers" = .null →
        (fetch_misskey_parse [("stats", .obj kvs)]).users_active_month = none) := by
  constructor
  · intro payload
    show first_int [coerce_int (jGet payload "stats") "monthlyActiveUsers",
        coerce_int (jGet payload "stats") "activeUsers"] = _
    exact first_int_pair _ _ (coerce_int_nonneg _ _) (coerce_int_nonneg _ _)
  · intro kvs hm hg
    show first_int [coerce_int (jGet [("stats", JValue.obj kvs)] "stats") "monthlyActiveUsers",
        coerce_int (jGet [("stats", JValue.obj kvs)] "stats") "activeUsers"] = none
    have hstats : jGet [("stats", JValue.obj kvs)] "stats" = JValue.obj kvs := rfl
    rw [hstats]
    simp only [coerce_int, hm, hg]
    rfl

theorem C8_misskey_active_users_amended_witness :
    jGet [("weeklyActiveUsers", JValue.num 7)] "monthlyActiveUsers" = JValue.null ∧
    jGet [("weeklyActiveUsers", JValue.num 7)] "activeUsers" = JValue.null ∧
    (fetch_misskey_parse [("stats", JValue.obj [("weeklyActiveUsers", JValue.num 7)])]).users_active_month = none :=
  ⟨rfl, rfl, C8_misskey_active_users_amended.2 [("weeklyActiveUsers", JValue.num 7)] rfl rfl⟩

theorem mem_map_overwrite (o c : String) :
    ∀ aliases : List (String × String), aliases.any (fun p => p.1 = o) = true →
      (o, c) ∈ aliases.map (fun p => if p.1 = o then (o, c) else p) := by
  intro aliases h
  induction aliases with
  | nil => simp at h
  | cons hd tl ih =>
    by_cases hh : hd.1 = o
    · simp [hh]
    · simp only [List.any_cons, Bool.or_eq_true, decide_eq_true_eq] at h
      rcases h with h | h
      · exact absurd h hh
      · simp only [List.map_cons, if_neg hh, List.mem_cons]
        exact Or.inr (ih h)

/-- C9: `register_alias` records a mapping exactly when the normalised
hosts are nonempty, differ, are in the same zone, and the identical
mapping is not already present; when it records, the normalised pair is
in the saved map.  `a.example.org → b.other.org` (different zones)
changes nothing, while `sub.example.org → example.org` is accepted and
persisted. -/
theorem C9_register_alias :
    (∀ (aliases : List (String × String)) (o c : String),
      ((register_alias aliases o c).isSome ↔
        (normalize_host o ≠ "" ∧ normalize_host c ≠ "" ∧
         normalize_host o ≠ normalize_host c ∧
         same_zone (normalize_host o) (normalize_host c) = true ∧
         (aliases.find? (fun p => p.1 = normalize_host o)).map (fun p => p.2) ≠
           some (normalize_host c))))
    ∧ (∀ aliases o c m, register_alias aliases o c = some m →
        (normalize_host o, normalize_host c) ∈ m)
    ∧ register_alias [] "a.example.org" "b.other.org" = none
    ∧ register_alias [] "sub.example.org" "example.org" =
        some [("sub.example.org", "example.org")] := by
  refine ⟨?_, ?_, by decide, by decide⟩
  · intro aliases o c
    unfold register_alias
    dsimp only
    split_ifs with h1 h2 h3 h4
    · simp only [Option.isSome_none, Bool.false_eq_true, false_iff]
      rintro ⟨k1, k2, k3, -, -⟩
      rcases h1 with h | h | h
      · exact k1 h
      · exact k2 h
      · exact k3 h
    · simp only [Option.isSome_none, Bool.false_eq_true, false_iff]
      rintro ⟨-, -, -, -, hne⟩
      exact hne h3
    · simp only [Option.isSome_some, true_iff]
      push_neg at h1
      exact ⟨h1.1, h1.2.1, h1.2.2, h2, h3⟩
    · simp only [Option.isSome_some, true_iff]
      push_neg at h1
      exact ⟨h1.1, h1.2.1, h1.2.2, h2, h3⟩
    · simp only [Option.isSome_none, Bool.false_eq_true, false_iff]
      rintro ⟨-, -, -, hz, -⟩
      exact h2 hz
  · intro aliases o c m h
    unfold register_alias at h
    dsimp only at h
    split_ifs at h with h1 h2 h3 h4
    · cases h
      exact mem_map_overwrite _ _ _ h4
    · cases h
      simp

/-- C2 (counterexample): starting from an ok-bucket that contains
`h.example` (from an earlier pass), one processing step whose record
for the same host classifies `"bad"` leaves `h.example` present in both
bucket maps — the stale ok-bucket copy is not removed. -/
theorem C2_counterexample :
    classify_record recNowBad false = "bad" ∧
    hasHost (main_step [("h.example", recPrevGood)] [] recNowBad false).1 "h.example" = true ∧
    hasHost (main_step [("h.example", recPrevGood)] [] recNowBad false).2 "h.example" = true := by
  decide

theorem any_map_overwrite_ne (k h : String) (v : StatsRecord) (hne : h ≠ k) :
    ∀ m : List (String × StatsRecord),
      ((m.map (fun p => if p.1 = k then (k, v) else p)).any (fun p => p.1 = h))
        = (m.any (fun p => p.1 = h)) := by
  intro m
  induction m with
  | nil => rfl
  | cons hd tl ih =>
    by_cases hhd : hd.1 = k
    · simp only [List.map_cons, if_pos hhd, List.any_cons, ih]
      have h1 : decide (k = h) = false := by
        simp only [decide_eq_false_iff_not]
        exact fun hc => hne hc.symm
      have h2 : decide (hd.1 = h) = false := by
        simp only [decide_eq_false_iff_not, hhd]
        exact fun hc => hne hc.symm
      rw [h1, h2]
    · simp only [List.map_cons, if_neg hhd, List.any_cons, ih]

theorem hasHost_dictSet_iff (m : List (String × StatsRecord)) (k : String)
    (v : StatsRecord) (h : String) :
    hasHost (dictSet m k v) h = true ↔ (hasHost m h = true ∨ h = k) := by
  unfold dictSet hasHost
  split_ifs with hk
  · by_cases hh : h = k
    · subst hh
      simp only [or_true, iff_true]
      simp only [List.any_eq_true, decide_eq_true_eq] at hk ⊢
      obtain ⟨p, hp, hpk⟩ := hk
      exact ⟨(h, v), List.mem_map.mpr ⟨p, hp, by simp [hpk]⟩, rfl⟩
    · rw [any_map_overwrite_ne k h v hh]
      simp [hh]
  · simp only [List.any_append, List.any_cons, List.any_nil, Bool.or_false,
      Bool.or_eq_true]
    constructor
    · rintro (hm | hkh)
      · exact Or.inl hm
      · simp only [decide_eq_true_eq] at hkh
        exact Or.inr hkh.symm
    · rintro (hm | hkh)
      · exact Or.inl hm
      · subst hkh
        exact Or.inr (by simp)

/-- C2 (amended): a processing step upserts the record into the bucket
chosen by its current classification and leaves the other bucket map
untouched: afterwards the chosen bucket's keys are the old ones plus
the record's host, and the other bucket is unchanged.  A stale entry
for the same host in the opposite bucket is not removed, so every host
appears in at most one bucket after the step only under the extra
premise that the processed host was not already in the opposite
bucket. -/
theorem C2_main_step_amended (ok bad : List (String × StatsRecord))
    (r : StatsRecord) (he : Bool) :
    (∀ h, hasHost (main_step ok bad r he).1 h = true ↔
      (hasHost ok h = true ∨ (classify_record r he = "good" ∧ h = r.host)))
    ∧ (∀ h, hasHost (main_step ok bad r he).2 h = true ↔
      (hasHost bad h = true ∨ (classify_record r he ≠ "good" ∧ h = r.host)))
    ∧ ((∀ h, ¬(hasHost ok h = true ∧ hasHost bad h = true)) →
       (classify_record r he = "good" → hasHost bad r.host = false) →
       (classify_record r he ≠ "good" → hasHost ok r.host = false) →
       ∀ h, ¬(hasHost (main_step ok bad r he).1 h = true ∧
              hasHost (main_step ok bad r he).2 h = true)) := by
  by_cases hcl : classify_record r he = "good"
  · simp only [main_step, if_pos hcl]
    refine ⟨fun h => ?_, fun h => ?_, ?_⟩
    · rw [hasHost_dictSet_iff]
      constructor
      · rintro (hm | hk)
        · exact Or.inl hm
        · exact Or.inr ⟨hcl, hk⟩
      · rintro (hm | ⟨-, hk⟩)
        · exact Or.inl hm
        · exact Or.inr hk
    · constructor
      · exact fun hm => Or.inl hm
      · rintro (hm | ⟨hne, -⟩)
        · exact hm
        · exact absurd hcl hne
    · intro hdisj hgood _ h ⟨ha, hb⟩
      rcases (hasHost_dictSet_iff ok r.host r h).mp ha with hm | hk
      · exact hdisj h ⟨hm, hb⟩
      · subst hk
        rw [hgood hcl] at hb
        cases hb
  · simp only [main_step, if_neg hcl]
    refine ⟨fun h => ?_, fun h => ?_, ?_⟩
    · constructor
      · exact fun hm => Or.inl hm
      · rintro (hm | ⟨hg, -⟩)
        · exact hm
        · exact absurd hg hcl
    · rw [hasHost_dictSet_iff]
      constructor
      · rintro (hm | hk)
        · exact Or.inl hm
        · exact Or.inr ⟨hcl, hk⟩
      · rintro (hm | ⟨-, hk⟩)
        · exact Or.inl hm
        · exact Or.inr hk
    · intro hdisj _ hbad h ⟨ha, hb⟩
      rcases (hasHost_dictSet_iff bad r.host r h).mp hb with hm | hk
      · exact hdisj h ⟨ha, hm⟩
      · subst hk
        rw [hbad hcl] at ha
        cases ha

theorem C2_main_step_amended_witness :
    ¬(hasHost (main_step [] [] recPrevGood false).1 "h.example" = true ∧
      hasHost (main_step [] [] recPrevGood false).2 "h.example" = true) :=
  (C2_main_step_amended [] [] recPrevGood false).2.2
    (fun h hc => by simp [hasHost] at hc)
    (fun _ => rfl) (fun _ => rfl) "h.example"

theorem verLt_asymm_trans (a b c : Int × Int)
    (h1 : verLt a b = false) (h2 : verLt b c = false) : verLt a c = false := by
  simp only [verLt, decide_eq_false_iff_not, not_or, not_and, not_lt] at *
  omega

theorem verLt_flip (a b : Int × Int) (h : verLt a b = true) : verLt b a = false := by
  simp only [verLt, decide_eq_true_eq, decide_eq_false_iff_not, not_or, not_and, not_lt] at *
  omega

theorem foldl_max_mem (key : List (String × JValue) → Int × Int)
    (c : List (String × JValue)) (cs : List (List (String × JValue))) :
    (cs.foldl (fun best l => if verLt (key best) (key l) then l else best) c) ∈ c :: cs := by
  induction cs generalizing c with
  | nil => simp
  | cons x xs ih =>
    simp only [List.foldl_cons]
    by_cases hlt : verLt (key c) (key x) = true
    · rw [if_pos hlt]
      have := ih x
      simp only [List.mem_cons] at this ⊢
      tauto
    · rw [if_neg hlt]
      have := ih c
      simp only [List.mem_cons] at this ⊢
      tauto

theorem foldl_max_ge (key : List (String × JValue) → Int × Int)
    (c : List (String × JValue)) (cs : List (List (String × JValue))) :
    ∀ l ∈ c :: cs,
      verLt (key (cs.foldl (fun best l => if verLt (key best) (key l) then l else best) c))
        (key l) = false := by
  induction cs generalizing c with
  | nil =>
    intro l hl
    simp only [List.foldl_nil]
    simp only [List.mem_cons, List.not_mem_nil, or_false] at hl
    subst hl
    simp [verLt]
  | cons x xs ih =>
    intro l hl
    simp only [List.foldl_cons]
    simp only [List.mem_cons] at hl
    by_cases hlt : verLt (key c) (key x) = true
    · rw [if_pos hlt]
      rcases hl with h | h | h
      · rw [h]
        exact verLt_asymm_trans _ _ _ (ih x x (by simp)) (verLt_flip _ _ hlt)
      · rw [h]
        exact ih x x (by simp)
      · exact ih x l (by simp [h])
    · rw [if_neg hlt]
      rcases hl with h | h | h
      · rw [h]
        exact ih c c (by simp)
      · rw [h]
        have hcx : verLt (key c) (key x) = false := by
          rcases hv : verLt (key c) (key x) with _ | _
          · rfl
          · exact absurd hv hlt
        exact verLt_asymm_trans _ _ _ (ih c c (by simp)) hcx
      · exact ih c l (by simp [h])

theorem mem_linkCandidates_of_mem (links : List JValue) (kvs : List (String × JValue))
    (h : JValue.obj kvs ∈ links) : kvs ∈ linkCandidates links := by
  unfold linkCandidates
  exact List.mem_filterMap.mpr ⟨JValue.obj kvs, h, rfl⟩

theorem mem_of_mem_linkCandidates (links : List JValue) (kvs : List (String × JValue))
    (h : kvs ∈ linkCandidates links) : JValue.obj kvs ∈ links := by
  unfold linkCandidates at h
  obtain ⟨a, ha, hfa⟩ := List.mem_filterMap.mp h
  cases a <;> simp at hfa
  rwa [hfa] at ha

/-- C5: whenever the index's `links` contain at least one dict entry,
`select_latest_nodeinfo_link` succeeds and returns a dict link whose
`(major, minor)` `version_key` is lexicographically maximal over all
dict links (malformed version strings sort as `(0, 0)` — witness the
`x.y` link — and never cause a failure); on links ending in
`nodeinfo/2.0`, `nodeinfo/2.1` and the malformed `nodeinfo/x.y`, the
`2.1` link is selected. -/
theorem C5_select_latest_nodeinfo_link :
    (∀ (links : List JValue) (kvs0 : List (String × JValue)), JValue.obj kvs0 ∈ links →
      ∃ best, select_latest_nodeinfo_link links = some best ∧
        JValue.obj best ∈ links ∧
        (∀ kvs, JValue.obj kvs ∈ links → verLt (version_key best) (version_key kvs) = false))
    ∧ select_latest_nodeinfo_link [.obj linkV20, .obj linkV21, .obj linkVxy] = some linkV21
    ∧ version_key linkVxy = (0, 0)
    ∧ version_key linkV21 = (2, 1) := by
  refine ⟨?_, by rfl, by rfl, by rfl⟩
  intro links kvs0 h0
  have hmem := mem_linkCandidates_of_mem links kvs0 h0
  unfold select_latest_nodeinfo_link
  rcases hc : linkCandidates links with _ | ⟨c, cs⟩
  · rw [hc] at hmem
    cases hmem
  · refine ⟨_, rfl, ?_, ?_⟩
    · apply mem_of_mem_linkCandidates
      rw [hc]
      exact foldl_max_mem version_key c cs
    · intro kvs hk
      have := mem_linkCandidates_of_mem links kvs hk
      rw [hc] at this
      exact foldl_max_ge version_key c cs kvs this

theorem C5_select_latest_nodeinfo_link_witness :
    JValue.obj linkV21 ∈ [JValue.obj linkV20, JValue.obj linkV21, JValue.obj linkVxy] ∧
    ∃ best, select_latest_nodeinfo_link
        [JValue.obj linkV20, JValue.obj linkV21, JValue.obj linkVxy] = some best ∧
      JValue.obj best ∈ [JValue.obj linkV20, JValue.obj linkV21, JValue.obj linkVxy] ∧
      (∀ kvs, JValue.obj kvs ∈ [JValue.obj linkV20, JValue.obj linkV21, JValue.obj linkVxy] →
        verLt (version_key best) (version_key kvs) = false) :=
  ⟨by simp, C5_select_latest_nodeinfo_link.1
    [JValue.obj linkV20, JValue.obj linkV21, JValue.obj linkVxy] linkV21 (by simp)⟩

theorem C9_register_alias_witness :
    (normalize_host "sub.example.org", normalize_host "example.org") ∈
      [("sub.example.org", "example.org")] :=
  C9_register_alias.2.1 [] "sub.example.org" "example.org"
    [("sub.example.org", "example.org")] (by decide)

theorem idnaAscii_some_eq (l e : List Char) (h : idnaAscii l = some e) : e = l := by
  unfold idnaAscii at h
  split_ifs at h <;> simp_all

theorem normalizeHostL_eq (h : List Char) :
    normalizeHostL h = rstripDotsL (lowerL (stripPort (pyStripL h))) := by
  unfold normalizeHostL
  dsimp only
  rcases hi : idnaAscii (stripPort (pyStripL h)) with _ | enc
  · rfl
  · rw [idnaAscii_some_eq _ _ hi]

theorem lowerChar_cases (c : Char) :
    lowerChar c = c ∨ c ∈ ['A', 'B', 'C', 'D', 'E', 'F', 'G', 'H', 'I', 'J', 'K', 'L',
      'M', 'N', 'O', 'P', 'Q', 'R', 'S', 'T', 'U', 'V', 'W', 'X', 'Y', 'Z'] := by
  unfold lowerChar
  split <;> first | exact Or.inl rfl | exact Or.inr (by decide)

theorem lowerChar_idem (c : Char) : lowerChar (lowerChar c) = lowerChar c := by
  rcases lowerChar_cases c with h | h
  · rw [h]
    exact h
  · fin_cases h <;> rfl

theorem lowerChar_eq_dot (c : Char) : (lowerChar c = '.') ↔ (c = '.') := by
  unfold lowerChar
  split <;> first | rfl | decide

theorem dropWhile_map_char (f : Char → Char) (p : Char → Bool) (l : List Char) :
    (l.map f).dropWhile p = (l.dropWhile (fun c => p (f c))).map f := by
  induction l with
  | nil => rfl
  | cons c cs ih =>
    simp only [List.map_cons, List.dropWhile_cons]
    split_ifs <;> simp_all

theorem dropWhile_idem_char (p : Char → Bool) (l : List Char) :
    (l.dropWhile p).dropWhile p = l.dropWhile p := by
  induction l with
  | nil => rfl
  | cons c cs ih =>
    simp only [List.dropWhile_cons]
    split_ifs with hc
    · exact ih
    · simp only [List.dropWhile_cons, if_neg hc]

theorem rstripDots_idem (l : List Char) :
    rstripDotsL (rstripDotsL l) = rstripDotsL l := by
  unfold rstripDotsL
  rw [List.reverse_reverse, dropWhile_idem_char]

theorem lowerL_rstripDots (l : List Char) :
    lowerL (rstripDotsL l) = rstripDotsL (lowerL l) := by
  unfold rstripDotsL lowerL
  rw [List.reverse_map, dropWhile_map_char]
  have hp : (fun c => decide (lowerChar c = '.')) = (fun c => decide (c = '.')) := by
    funext c
    exact decide_eq_decide.mpr (lowerChar_eq_dot c)
  rw [hp, List.reverse_map]

theorem lowerL_idem (l : List Char) : lowerL (lowerL l) = lowerL l := by
  unfold lowerL
  rw [List.map_map]
  congr 1
  funext c
  exact lowerChar_idem c

/-- C7 (counterexample): `_normalize_host` is not idempotent — on
`"a:1:2"` one pass strips only the outermost `:2` port suffix (giving
`"a:1"`, accepted by the IDNA ASCII fast path), while a second pass
strips the remaining `:1`. -/
theorem C7_counterexample :
    ¬ (normalize_host (normalize_host "a:1:2") = normalize_host "a:1:2") := by
  decide

/-- C7 (amended): `_normalize_host` is idempotent on every (ASCII)
input whose normalised form is left unchanged by a second
whitespace-strip and port-strip; in general a second application may
strip a further trailing `:<digits>` port suffix (or whitespace
uncovered by it), as the counterexample `"a:1:2"` shows. -/
theorem C7_normalize_host_idempotent_amended (x : String)
    (hascii : ∀ c ∈ x.toList, c.toNat < 128)
    (h1 : pyStripL (normalize_host x).toList = (normalize_host x).toList)
    (h2 : stripPort (normalize_host x).toList = (normalize_host x).toList) :
    normalize_host (normalize_host x) = normalize_host x := by
  unfold normalize_host
  have h1' : pyStripL (normalizeHostL x.toList) = normalizeHostL x.toList := h1
  have h2' : stripPort (normalizeHostL x.toList) = normalizeHostL x.toList := h2
  congr 1
  show normalizeHostL (normalizeHostL x.toList) = normalizeHostL x.toList
  rw [normalizeHostL_eq (normalizeHostL x.toList), h1', h2']
  rw [normalizeHostL_eq x.toList]
  rw [lowerL_rstripDots, lowerL_idem, rstripDots_idem]

theorem C7_normalize_host_idempotent_amended_witness :
    (∀ c ∈ ("Example.COM." : String).toList, c.toNat < 128) ∧
    normalize_host (normalize_host "Example.COM.") = normalize_host "Example.COM." :=
  ⟨by decide, C7_normalize_host_idempotent_amended "Example.COM." (by decide)
    (by decide) (by decide)⟩

theorem natDigits_ne_nil (n : Nat) : natDigits n ≠ [] := by
  unfold natDigits
  split_ifs <;> simp

theorem pyIntToStr_ne_empty (n : Int) : pyIntToStr n ≠ "" := by
  unfold pyIntToStr
  split_ifs <;> intro h <;> have := congrArg String.toList h <;>
    simp only [String.toList] at this
  · cases this
  · exact natDigits_ne_nil _ this

theorem pyStr_arr (xs : List JValue) :
    pyStr (JValue.arr xs) = "[" ++ pyReprList xs ++ "]" := by
  rw [pyStr]

theorem pyStr_obj (kvs : List (String × JValue)) :
    pyStr (JValue.obj kvs) = "\x7b" ++ pyReprKVList kvs ++ "\x7d" := by
  rw [pyStr]

theorem pyStr_truthy_ne (v : JValue) (h : jTruthy v = true) : pyStr v ≠ "" := by
  cases v with
  | null => simp [jTruthy] at h
  | bool b =>
    cases b
    · simp [jTruthy] at h
    · intro hc
      exact absurd hc (by decide)
  | num n => exact pyIntToStr_ne_empty n
  | str s =>
    simp only [jTruthy, ne_eq, decide_eq_true_eq] at h
    exact h
  | arr xs =>
    rw [pyStr_arr]
    intro hc
    have := congrArg String.length hc
    simp [String.length_append] at this
    exact absurd this.1.1 (by decide)
  | obj kvs =>
    rw [pyStr_obj]
    intro hc
    have := congrArg String.length hc
    simp [String.length_append] at this
    exact absurd this.1.1 (by decide)

theorem update_software_fields (r : StatsRecord) (v : JValue) :
    (update_software r v).users_total = r.users_total ∧
    (update_software r v).users_active_month = r.users_active_month ∧
    (update_software r v).statuses = r.statuses ∧
    (update_software r v).open_registrations = r.open_registrations ∧
    (update_software r v).host = r.host ∧
    (update_software r v).verified_activitypub = r.verified_activitypub ∧
    (update_software r v).languages_detected = r.languages_detected := by
  unfold update_software
  cases v <;> try exact ⟨rfl, rfl, rfl, rfl, rfl, rfl, rfl⟩
  dsimp only
  split_ifs <;> exact ⟨rfl, rfl, rfl, rfl, rfl, rfl, rfl⟩

theorem update_open_registrations_fields (r : StatsRecord) (v : JValue) :
    (update_open_registrations r v).users_total = r.users_total ∧
    (update_open_registrations r v).users_active_month = r.users_active_month ∧
    (update_open_registrations r v).statuses = r.statuses ∧
    (update_open_registrations r v).software_name = r.software_name ∧
    (update_open_registrations r v).software_version = r.software_version ∧
    (update_open_registrations r v).host = r.host ∧
    (update_open_registrations r v).verified_activitypub = r.verified_activitypub ∧
    (update_open_registrations r v).languages_detected = r.languages_detected := by
  unfold update_open_registrations
  rcases coerce_bool v with _ | b
  · exact ⟨rfl, rfl, rfl, rfl, rfl, rfl, rfl, rfl⟩
  · dsimp only
    split_ifs <;> exact ⟨rfl, rfl, rfl, rfl, rfl, rfl, rfl, rfl⟩

theorem update_open_registrations_keep (r : StatsRecord) (v : JValue) (b : Bool)
    (h : r.open_registrations = some b) :
    (update_open_registrations r v).open_registrations = some b := by
  unfold update_open_registrations
  rcases coerce_bool v with _ | c
  · exact h
  · dsimp only
    rw [if_neg (by simp [h])]
    exact h

theorem update_software_name_keep (r : StatsRecord) (v : JValue) (s : String)
    (hs : r.software_name = some s) (hne : s ≠ "") :
    (update_software r v).software_name = some s := by
  unfold update_software
  cases v <;> try exact hs
  dsimp only
  have hopt : optTruthy r.software_name = true := by simp [optTruthy, hs, hne]
  split_ifs with h1 h2 h3
  · exact absurd hopt h1.2
  · exact absurd hopt h1.2
  · exact hs
  · exact hs

theorem update_software_version_keep (r : StatsRecord) (v : JValue) (s : String)
    (hs : r.software_version = some s) (hne : s ≠ "") :
    (update_software r v).software_version = some s := by
  unfold update_software
  cases v <;> try exact hs
  dsimp only
  have hopt : optTruthy r.software_version = true := by simp [optTruthy, hs, hne]
  split_ifs with h1 h2 h3
  · exact absurd hopt h2.2
  · exact hs
  · exact absurd hopt h3.2
  · exact hs

theorem update_software_swInv (r : StatsRecord) (v : JValue)
    (h : swInv r) : swInv (update_software r v) := by
  obtain ⟨hn, hv⟩ := h
  unfold update_software
  cases v <;> try exact ⟨hn, hv⟩
  dsimp only
  split_ifs with h1 h2 h3
  · exact ⟨fun s hs => by cases hs; exact pyStr_truthy_ne _ h1.1,
      fun s hs => by cases hs; exact pyStr_truthy_ne _ h2.1⟩
  · exact ⟨fun s hs => by cases hs; exact pyStr_truthy_ne _ h1.1, hv⟩
  · exact ⟨hn, fun s hs => by cases hs; exact pyStr_truthy_ne _ h3.1⟩
  · exact ⟨hn, hv⟩

theorem update_open_registrations_swInv (r : StatsRecord) (v : JValue)
    (h : swInv r) : swInv (update_open_registrations r v) := by
  obtain ⟨f1, f2, f3, f4, f5, f6, f7, f8⟩ := update_open_registrations_fields r v
  exact ⟨fun s hs => h.1 s (by rwa [f4] at hs), fun s hs => h.2 s (by rwa [f5] at hs)⟩

theorem update_software_countersNonneg (r : StatsRecord) (v : JValue)
    (h : countersNonneg r) : countersNonneg (update_software r v) := by
  obtain ⟨f1, f2, f3, -⟩ := update_software_fields r v
  exact ⟨fun n hn => h.1 n (by rwa [f1] at hn),
    fun n hn => h.2.1 n (by rwa [f2] at hn),
    fun n hn => h.2.2 n (by rwa [f3] at hn)⟩

theorem update_open_registrations_countersNonneg (r : StatsRecord) (v : JValue)
    (h : countersNonneg r) : countersNonneg (update_open_registrations r v) := by
  obtain ⟨f1, f2, f3, -⟩ := update_open_registrations_fields r v
  exact ⟨fun n hn => h.1 n (by rwa [f1] at hn),
    fun n hn => h.2.1 n (by rwa [f2] at hn),
    fun n hn => h.2.2 n (by rwa [f3] at hn)⟩

theorem nodeinfoMerge_swInv (r0 : StatsRecord) (doc : List (String × JValue))
    (h : swInv r0) : swInv (nodeinfoMerge r0 doc).1 := by
  unfold nodeinfoMerge
  split_ifs with hemp
  · exact h
  · dsimp only
    have h1 : swInv { r0 with verified_activitypub := true } := h
    have h2 := update_software_swInv _ (jGet doc "software") h1
    have h3 := update_open_registrations_swInv _ (jGet doc "openRegistrations") h2
    exact ⟨h3.1, h3.2⟩

theorem nodeinfoMerge_countersNonneg (r0 : StatsRecord) (doc : List (String × JValue))
    (h : countersNonneg r0) : countersNonneg (nodeinfoMerge r0 doc).1 := by
  unfold nodeinfoMerge
  split_ifs with hemp
  · exact h
  · dsimp only
    have h1 : countersNonneg { r0 with verified_activitypub := true } := h
    have h2 := update_software_countersNonneg _ (jGet doc "software") h1
    have h3 := update_open_registrations_countersNonneg _ (jGet doc "openRegistrations") h2
    refine ⟨?_, ?_, ?_⟩
    · intro n hn
      exact update_numeric_nonneg _ _ h3.1 n hn
    · intro n hn
      exact update_numeric_nonneg _ _ h3.2.1 n hn
    · intro n hn
      exact update_numeric_nonneg _ _ h3.2.2 n hn

theorem canonRewrite_fields (inst : Instance) (cb : Option CanonBase) (r : StatsRecord) :
    (canonRewrite inst cb r).1.users_total = r.users_total ∧
    (canonRewrite inst cb r).1.users_active_month = r.users_active_month ∧
    (canonRewrite inst cb r).1.statuses = r.statuses ∧
    (canonRewrite inst cb r).1.open_registrations = r.open_registrations ∧
    (canonRewrite inst cb r).1.software_name = r.software_name ∧
    (canonRewrite inst cb r).1.software_version = r.software_version ∧
    (canonRewrite inst cb r).1.verified_activitypub = r.verified_activitypub ∧
    (canonRewrite inst cb r).1.languages_detected = r.languages_detected := by
  unfold canonRewrite
  cases cb
  · exact ⟨rfl, rfl, rfl, rfl, rfl, rfl, rfl, rfl⟩
  · dsimp only
    split_ifs <;> exact ⟨rfl, rfl, rfl, rfl, rfl, rfl, rfl, rfl⟩

theorem platformMerge_preserve (st : StatsRecord × (List String × List String))
    (d : PlatformData) (hsw : swInv st.1) (hcn : countersNonneg st.1) :
    countersNonneg (platformMerge st d).1 ∧ swInv (platformMerge st d).1 ∧
    (∀ n, st.1.users_total = some n → (platformMerge st d).1.users_total = some n) ∧
    (∀ n, st.1.users_active_month = some n →
      (platformMerge st d).1.users_active_month = some n) ∧
    (∀ n, st.1.statuses = some n → (platformMerge st d).1.statuses = some n) ∧
    (∀ b, st.1.open_registrations = some b →
      (platformMerge st d).1.open_registrations = some b) ∧
    (∀ s, st.1.software_name = some s → (platformMerge st d).1.software_name = some s) ∧
    (∀ s, st.1.software_version = some s →
      (platformMerge st d).1.software_version = some s) := by
  unfold platformMerge
  dsimp only
  obtain ⟨a1, a2, a3, a4, -, -, -⟩ := update_software_fields st.1 d.software
  obtain ⟨b1, b2, b3, b4, b5, -, -, -⟩ :=
    update_open_registrations_fields (update_software st.1 d.software) d.open_registrations
  have hswa := update_software_swInv st.1 d.software hsw
  have hswb := update_open_registrations_swInv _ d.open_registrations hswa
  have hcna := update_software_countersNonneg st.1 d.software hcn
  have hcnb := update_open_registrations_countersNonneg _ d.open_registrations hcna
  refine ⟨⟨?_, ?_, ?_⟩, ⟨?_, ?_⟩, ?_, ?_, ?_, ?_, ?_, ?_⟩
  · intro n hn
    exact update_numeric_nonneg _ _ hcnb.1 n hn
  · intro n hn
    exact update_numeric_nonneg _ _ hcnb.2.1 n hn
  · intro n hn
    exact update_numeric_nonneg _ _ hcnb.2.2 n hn
  · intro s hs
    exact hswb.1 s hs
  · intro s hs
    exact hswb.2 s hs
  · intro n hn
    show update_numeric (update_open_registrations (update_software st.1 d.software)
      d.open_registrations).users_total (optJ d.users_total) = some n
    rw [b1, a1, hn]
    exact update_numeric_some n _
  · intro n hn
    show update_numeric (update_open_registrations (update_software st.1 d.software)
      d.open_registrations).users_active_month (optJ d.users_active_month) = some n
    rw [b2, a2, hn]
    exact update_numeric_some n _
  · intro n hn
    show update_numeric (update_open_registrations (update_software st.1 d.software)
      d.open_registrations).statuses (optJ d.statuses) = some n
    rw [b3, a3, hn]
    exact update_numeric_some n _
  · intro b hb
    show (update_open_registrations (update_software st.1 d.software)
      d.open_registrations).open_registrations = some b
    exact update_open_registrations_keep _ _ b (by rw [a4]; exact hb)
  · intro s hs
    show (update_open_registrations (update_software st.1 d.software)
      d.open_registrations).software_name = some s
    rw [b4]
    exact update_software_name_keep st.1 d.software s hs (hsw.1 s hs)
  · intro s hs
    show (update_open_registrations (update_software st.1 d.software)
      d.open_registrations).software_version = some s
    rw [b5]
    exact update_software_version_keep st.1 d.software s hs (hsw.2 s hs)

theorem nodeinfo_stage_inv (inst : Instance) (ts : String)
    (ni : Except String (List (String × JValue) × CanonBase)) :
    swInv (nodeinfo_stage inst ts ni).1 ∧ countersNonneg (nodeinfo_stage inst ts ni).1 := by
  have hfresh_sw : swInv (freshRecord inst ts) := by
    constructor <;> intro s hs <;> cases hs
  have hfresh_cn : countersNonneg (freshRecord inst ts) := by
    refine ⟨?_, ?_, ?_⟩ <;> intro n hn <;> cases hn
  unfold nodeinfo_stage
  cases ni with
  | error e => exact ⟨hfresh_sw, hfresh_cn⟩
  | ok p =>
    obtain ⟨doc, base⟩ := p
    dsimp only
    obtain ⟨c1, c2, c3, c4, c5, c6, -, -⟩ :=
      canonRewrite_fields inst (some base) (nodeinfoMerge (freshRecord inst ts) doc).1
    have hm_sw := nodeinfoMerge_swInv (freshRecord inst ts) doc hfresh_sw
    have hm_cn := nodeinfoMerge_countersNonneg (freshRecord inst ts) doc hfresh_cn
    refine ⟨⟨?_, ?_⟩, ?_, ?_, ?_⟩
    · intro s hs
      exact hm_sw.1 s (by rwa [c5] at hs)
    · intro s hs
      exact hm_sw.2 s (by rwa [c6] at hs)
    · intro n hn
      exact hm_cn.1 n (by rwa [c1] at hn)
    · intro n hn
      exact hm_cn.2.1 n (by rwa [c2] at hn)
    · intro n hn
      exact hm_cn.2.2 n (by rwa [c3] at hn)

theorem platform_stage_preserve (inst : Instance)
    (ma mi : Except String PlatformData)
    (mid : StatsRecord × List String × (List String × List String))
    (hsw : swInv mid.1) (hcn : countersNonneg mid.1) :
    countersNonneg (platform_stage inst ma mi mid).1 ∧
    (∀ n, mid.1.users_total = some n →
      (platform_stage inst ma mi mid).1.users_total = some n) ∧
    (∀ n, mid.1.users_active_month = some n →
      (platform_stage inst ma mi mid).1.users_active_month = some n) ∧
    (∀ n, mid.1.statuses = some n →
      (platform_stage inst ma mi mid).1.statuses = some n) ∧
    (∀ b, mid.1.open_registrations = some b →
      (platform_stage inst ma mi mid).1.open_registrations = some b) ∧
    (∀ s, mid.1.software_name = some s →
      (platform_stage inst ma mi mid).1.software_name = some s) ∧
    (∀ s, mid.1.software_version = some s →
      (platform_stage inst ma mi mid).1.software_version = some s) := by
  unfold platform_stage
  dsimp only
  split_ifs with hp1 hp2 hp3
  · cases ma with
    | error e =>
      exact ⟨hcn, fun _ h => h, fun _ h => h, fun _ h => h, fun _ h => h,
        fun _ h => h, fun _ h => h⟩
    | ok d =>
      dsimp only
      have hpm := platformMerge_preserve ({ mid.1 with verified_activitypub := true },
        mid.2.2) d hsw hcn
      exact ⟨hpm.1, hpm.2.2.1, hpm.2.2.2.1, hpm.2.2.2.2.1, hpm.2.2.2.2.2.1,
        hpm.2.2.2.2.2.2.1, hpm.2.2.2.2.2.2.2⟩
  · cases mi with
    | error e =>
      exact ⟨hcn, fun _ h => h, fun _ h => h, fun _ h => h, fun _ h => h,
        fun _ h => h, fun _ h => h⟩
    | ok d =>
      dsimp only
      have hpm := platformMerge_preserve ({ mid.1 with verified_activitypub := true },
        mid.2.2) d hsw hcn
      exact ⟨hpm.1, hpm.2.2.1, hpm.2.2.2.1, hpm.2.2.2.2.1, hpm.2.2.2.2.2.1,
        hpm.2.2.2.2.2.2.1, hpm.2.2.2.2.2.2.2⟩
  · exact ⟨hcn, fun _ h => h, fun _ h => h, fun _ h => h, fun _ h => h,
      fun _ h => h, fun _ h => h⟩
  · exact ⟨hcn, fun _ h => h, fun _ h => h, fun _ h => h, fun _ h => h,
      fun _ h => h, fun _ h => h⟩

/-- C10: `coerce_int_value` never returns a negative number; hence every
record assembled by `process_instance` carries only absent-or-nonnegative
counters, and on such records `is_anomalous` can only fire through the
ratio rule — its negative-counter branches are unreachable.  The ratio
rule is CPython's correctly-rounded binary64 division: for `0 < u`,
`float(s / u) > 50000.0` holds exactly when
`(50000 * 2^38 + 1) * u < s * 2^38` (the midpoint `50000 + 2^-38`
ties to the even significand and rounds down). -/
theorem C10_nonnegative_counters :
    (∀ (v : JValue) (n : Int), coerce_int_value v = some n → 0 ≤ n)
    ∧ (∀ (inst : Instance) (ts : String)
        (ni : Except String (List (String × JValue) × CanonBase))
        (ma mi : Except String PlatformData),
        countersNonneg (process_instance inst ts ni ma mi).1)
    ∧ (∀ r : StatsRecord, countersNonneg r →
        (is_anomalous r = true ↔
          (∃ u s, r.users_total = some u ∧ r.statuses = some s ∧
            0 < u ∧ 13743895347200001 * u < s * 274877906944))) := by
  refine ⟨coerce_int_value_nonneg, ?_, ?_⟩
  · intro inst ts ni ma mi
    have h := nodeinfo_stage_inv inst ts ni
    exact (platform_stage_preserve inst ma mi _ h.1 h.2).1
  · intro r hcn
    rw [is_anomalous_iff]
    constructor
    · rintro (⟨n, hn, hlt⟩ | ⟨n, hn, hlt⟩ | ⟨n, hn, hlt⟩ | ⟨u, s, hu, hs, hpu, hps, hr⟩)
      · exact absurd (hcn.1 n hn) (by omega)
      · exact absurd (hcn.2.2 n hn) (by omega)
      · exact absurd (hcn.2.1 n hn) (by omega)
      · exact ⟨u, s, hu, hs, hpu, hr⟩
    · rintro ⟨u, s, hu, hs, hpu, hr⟩
      refine Or.inr (Or.inr (Or.inr ⟨u, s, hu, hs, hpu, ?_, hr⟩))
      omega

theorem C10_nonnegative_counters_witness :
    coerce_int_value (JValue.num 5) = some 5 ∧ (0 : Int) ≤ 5 :=
  ⟨rfl, C10_nonnegative_counters.1 (JValue.num 5) 5 rfl⟩

/-- C3: every field populated by the NodeInfo stage survives the
platform-adapter stage unchanged (first successful writer wins, per
field); in particular with NodeInfo supplying `users_total = 100` and
the adapter supplying `users_total = 200`, the assembled record keeps
`100`. -/
theorem C3_field_precedence :
    (∀ (inst : Instance) (ts : String)
      (ni : Except String (List (String × JValue) × CanonBase))
      (ma mi : Except String PlatformData),
      (∀ n, (nodeinfo_stage inst ts ni).1.users_total = some n →
        (process_instance inst ts ni ma mi).1.users_total = some n) ∧
      (∀ n, (nodeinfo_stage inst ts ni).1.users_active_month = some n →
        (process_instance inst ts ni ma mi).1.users_active_month = some n) ∧
      (∀ n, (nodeinfo_stage inst ts ni).1.statuses = some n →
        (process_instance inst ts ni ma mi).1.statuses = some n) ∧
      (∀ b, (nodeinfo_stage inst ts ni).1.open_registrations = some b →
        (process_instance inst ts ni ma mi).1.open_registrations = some b) ∧
      (∀ s, (nodeinfo_stage inst ts ni).1.software_name = some s →
        (process_instance inst ts ni ma mi).1.software_name = some s) ∧
      (∀ s, (nodeinfo_stage inst ts ni).1.software_version = some s →
        (process_instance inst ts ni ma mi).1.software_version = some s))
    ∧ (nodeinfo_stage instMasto "t" (.ok (niDoc100, cbC3))).1.users_total = some 100
    ∧ mastoData200.users_total = some 200
    ∧ (process_instance instMasto "t" (.ok (niDoc100, cbC3))
        (.ok mastoData200) (.error "x")).1.users_total = some 100 := by
  refine ⟨?_, by rfl, rfl, by rfl⟩
  intro inst ts ni ma mi
  have h := nodeinfo_stage_inv inst ts ni
  have hp := platform_stage_preserve inst ma mi
    ((nodeinfo_stage inst ts ni).1, (nodeinfo_stage inst ts ni).2.1,
      (nodeinfo_stage inst ts ni).2.2.1) h.1 h.2
  exact ⟨hp.2.1, hp.2.2.1, hp.2.2.2.1, hp.2.2.2.2.1, hp.2.2.2.2.2.1, hp.2.2.2.2.2.2⟩

theorem C3_field_precedence_witness :
    (nodeinfo_stage instMasto "t" (.ok (niDoc100, cbC3))).1.users_total = some 100 ∧
    (process_instance instMasto "t" (.ok (niDoc100, cbC3))
      (.ok mastoData200) (.error "x")).1.users_total = some 100 :=
  ⟨by rfl, (C3_field_precedence.1 instMasto "t" (.ok (niDoc100, cbC3))
    (.ok mastoData200) (.error "x")).1 100 (by rfl)⟩

theorem readLimited_ok (chunks : List (List Nat)) :
    ∀ buf : List Nat, buf.length + (readPrefix chunks).length ≤ MAX_JSON_BYTES →
      readLimited chunks buf = .ok (buf ++ readPrefix chunks) := by
  induction chunks with
  | nil =>
    intro buf h
    simp [readLimited, readPrefix]
  | cons c rest ih =>
    intro buf h
    unfold readLimited readPrefix
    by_cases hc : c.isEmpty
    · simp [hc]
    · rw [if_neg hc, if_neg hc] at *
      rw [if_neg ?hbound]
      case hbound =>
        rw [readPrefix] at h
        rw [if_neg hc] at h
        simp only [List.length_append] at h ⊢
        omega
      rw [ih (buf ++ c) ?hrec, List.append_assoc]
      case hrec =>
        rw [readPrefix] at h
        rw [if_neg hc] at h
        simp only [List.length_append] at h ⊢
        omega

theorem readLimited_error (chunks : List (List Nat)) :
    ∀ buf : List Nat, buf.length ≤ MAX_JSON_BYTES →
      MAX_JSON_BYTES < buf.length + (readPrefix chunks).length →
      readLimited chunks buf = .error "payload exceeded limit" := by
  induction chunks with
  | nil =>
    intro buf h1 h2
    rw [readPrefix] at h2
    simp at h2
    omega
  | cons c rest ih =>
    intro buf h1 h2
    rw [readPrefix] at h2
    unfold readLimited
    by_cases hc : c.isEmpty
    · rw [if_pos hc] at h2
      simp at h2
      omega
    · rw [if_neg hc] at h2
      rw [if_neg hc]
      by_cases hb : (buf ++ c).length > MAX_JSON_BYTES
    <;> dsimp only
      · rw [if_pos hb]
      · rw [if_neg hb]
        apply ih
        · omega
        · simp only [List.length_append] at h2 hb ⊢
          omega

theorem requestJson_terminal (net : Url → HttpResponse) (dp : List Nat → Option JValue)
    (u : Url) (h1 : (net u).status < 300) (h2 : _is_json_ct (net u).contentType = true) :
    request_json net dp none u =
      ((match (match (net u).contentLength with
          | some clen =>
            match pyIntParse clen with
            | some n =>
              if n > (MAX_JSON_BYTES : Int) then Except.error "payload too large"
              else Except.ok ()
            | none => Except.ok ()
          | none => (Except.ok () : Except String Unit)) with
        | .error m => FetchOutcome.fetchError m
        | .ok _ =>
          match readLimited (net u).chunks [] with
          | .error m => FetchOutcome.fetchError m
          | .ok buf =>
            match dp buf with
            | some v => FetchOutcome.ok v
            | none => FetchOutcome.fetchError "Invalid JSON response"), [u]) := by
  show requestJsonAux net dp none (MAX_REDIRECTS + 1) u [] = _
  rw [show MAX_REDIRECTS + 1 = 5 + 1 from rfl]
  unfold requestJsonAux
  dsimp only
  rw [if_neg (by omega : ¬ (300 ≤ (net u).status ∧ (net u).status < 400))]
  rw [if_neg (by omega : ¬ (net u).status ≥ 400)]
  rw [if_neg (by simp [h2])]
  simp only [List.nil_append]
  split <;> rename_i heq <;> rw [heq]
  all_goals try rfl
  all_goals (split <;> try rfl)
  all_goals (split <;> rfl)

/-- C6: on a terminal JSON response, `request_json` fails with a
`FetchError` whenever the declared (`Content-Length`) or actual body
size exceeds `MAX_JSON_BYTES` = 2,000,000 bytes; the actual-size
failure is decided chunk by chunk — once the buffer passes the cap the
remaining chunks are never consumed — and a response whose declared and
actual sizes are within the cap is never rejected for size: its outcome
is exactly the JSON-decoding outcome. -/
theorem C6_request_json_size_cap (net : Url → HttpResponse)
    (dp : List Nat → Option JValue) (u : Url)
    (h1 : (net u).status < 300) (h2 : _is_json_ct (net u).contentType = true) :
    ((∀ clen n, (net u).contentLength = some clen → pyIntParse clen = some n →
        (MAX_JSON_BYTES : Int) < n →
        request_json net dp none u = (.fetchError "payload too large", [u]))
    ∧ ((∀ clen n, (net u).contentLength = some clen → pyIntParse clen = some n →
          n ≤ (MAX_JSON_BYTES : Int)) →
        MAX_JSON_BYTES < (readPrefix (net u).chunks).length →
        request_json net dp none u = (.fetchError "payload exceeded limit", [u]))
    ∧ (∀ (buf c : List Nat) (rest rest2 : List (List Nat)), c.isEmpty = false →
        MAX_JSON_BYTES < (buf ++ c).length →
        readLimited (c :: rest) buf = .error "payload exceeded limit" ∧
        readLimited (c :: rest) buf = readLimited (c :: rest2) buf)
    ∧ ((∀ clen n, (net u).contentLength = some clen → pyIntParse clen = some n →
          n ≤ (MAX_JSON_BYTES : Int)) →
        (readPrefix (net u).chunks).length ≤ MAX_JSON_BYTES →
        request_json net dp none u =
          ((match dp (readPrefix (net u).chunks) with
            | some v => FetchOutcome.ok v
            | none => FetchOutcome.fetchError "Invalid JSON response"), [u]))) := by
  have hterm := requestJson_terminal net dp u h1 h2
  have hpre_ok : (∀ clen n, (net u).contentLength = some clen → pyIntParse clen = some n →
      n ≤ (MAX_JSON_BYTES : Int)) →
      (match (net u).contentLength with
        | some clen =>
          match pyIntParse clen with
          | some n =>
            if n > (MAX_JSON_BYTES : Int) then Except.error "payload too large"
            else Except.ok ()
          | none => Except.ok ()
        | none => (Except.ok () : Except String Unit)) = Except.ok () := by
    intro hd
    rcases hcl : (net u).contentLength with _ | clen
    · rfl
    · dsimp only
      rcases hp : pyIntParse clen with _ | n
      · rfl
      · dsimp only
        rw [if_neg (by have := hd clen n hcl hp; omega)]
  refine ⟨?_, ?_, ?_, ?_⟩
  · intro clen n hcl hp hgt
    rw [hterm, hcl]
    dsimp only
    rw [hp]
    dsimp only
    rw [if_pos (by omega)]
  · intro hd hbig
    rw [hterm, hpre_ok hd]
    dsimp only
    rw [readLimited_error (net u).chunks [] (by simp [MAX_JSON_BYTES]) (by simpa using hbig)]
  · intro buf c rest rest2 hce hgt
    have hstop : ∀ rest' : List (List Nat),
        readLimited (c :: rest') buf = .error "payload exceeded limit" := by
      intro rest'
      unfold readLimited
      rw [if_neg (show ¬ c.isEmpty = true by simp [hce])]
      dsimp only
      rw [if_pos (show (buf ++ c).length > MAX_JSON_BYTES by omega)]
    exact ⟨hstop rest, by rw [hstop rest, hstop rest2]⟩
  · intro hd hsmall
    rw [hterm, hpre_ok hd]
    dsimp only
    rw [readLimited_ok (net u).chunks [] (by simpa using hsmall)]
    simp only [List.nil_append]

theorem C6_request_json_size_cap_witness :
    (netBig urlSample).status < 300 ∧
    _is_json_ct (netBig urlSample).contentType = true ∧
    request_json netBig dpNone none urlSample =
      (.fetchError "payload too large", [urlSample]) :=
  ⟨by decide, by decide,
    (C6_request_json_size_cap netBig dpNone urlSample (by decide) (by decide)).1
      "3000000" 3000000 rfl (by decide) (by decide)⟩

theorem assert_ok_same_zone (u : Url) (eh : String)
    (h : assert_safe_url_relaxed u eh = .ok ()) :
    same_zone (⟨pyStripL u.host.toList⟩ : String) eh = true := by
  by_cases h1 : same_zone (⟨pyStripL u.host.toList⟩ : String) eh = true
  · exact h1
  · exfalso
    have hfail : assert_safe_url_relaxed u eh = .error "redirected to different host" := by
      unfold assert_safe_url_relaxed
      exact if_pos h1
    rw [hfail] at h
    cases h

theorem assert_fail_of_not_zone (u : Url) (eh : String)
    (h : same_zone (⟨pyStripL u.host.toList⟩ : String) eh = false) :
    assert_safe_url_relaxed u eh = .error "redirected to different host" := by
  unfold assert_safe_url_relaxed
  have h' : same_zone (⟨pyStripL u.host.data⟩ : String) eh = false := h
  exact if_pos (by simp [h'])

theorem requestJsonAux_trace_zone (net : Url → HttpResponse)
    (dp : List Nat → Option JValue) (eh : String) :
    ∀ (fuel : Nat) (u : Url) (trace : List Url) (u' : Url),
      u' ∈ (requestJsonAux net dp (some eh) fuel u trace).2 →
      u' ∈ trace ∨ same_zone (⟨pyStripL u'.host.toList⟩ : String) eh = true := by
  intro fuel
  induction fuel with
  | zero =>
    intro u trace u' h
    exact Or.inl h
  | succ n ih =>
    intro u trace u' h
    unfold requestJsonAux at h
    dsimp only at h
    rcases hchk : assert_safe_url_relaxed u eh with m | _ <;> rw [hchk] at h
    · exact Or.inl h
    · have hzu := assert_ok_same_zone u eh (by rw [hchk])
      dsimp only at h
      have hsnd : ∀ (e : Except String Unit) (rl : Except String (List Nat)) (t : List Url),
          (match e with
           | .error m => (FetchOutcome.fetchError m, t)
           | .ok _ =>
             match rl with
             | .error m => (FetchOutcome.fetchError m, t)
             | .ok buf =>
               match dp buf with
               | some v => (FetchOutcome.ok v, t)
               | none => (FetchOutcome.fetchError "Invalid JSON response", t)).2 = t := by
        intro e rl t
        rcases e with m | a
        · rfl
        · rcases rl with m | buf
          · rfl
          · dsimp only
            rcases dp buf with _ | v <;> rfl
      by_cases hred : 300 ≤ (net u).status ∧ (net u).status < 400
      · rw [if_pos hred] at h
        cases hloc : (net u).location <;> rw [hloc] at h
        · rcases List.mem_append.mp h with hv | hv
          · exact Or.inl hv
          · simp only [List.mem_singleton] at hv
            subst hv
            exact Or.inr hzu
        · rename_i next
          dsimp only at h
          rcases hchk2 : assert_safe_url_relaxed next eh with m2 | _ <;> rw [hchk2] at h
          · rcases List.mem_append.mp h with hv | hv
            · exact Or.inl hv
            · simp only [List.mem_singleton] at hv
              subst hv
              exact Or.inr hzu
          · rcases ih next (trace ++ [u]) u' h with hv | hv
            · rcases List.mem_append.mp hv with hw | hw
              · exact Or.inl hw
              · simp only [List.mem_singleton] at hw
                subst hw
                exact Or.inr hzu
            · exact Or.inr hv
      · rw [if_neg hred] at h
        have hmem : u' ∈ trace ++ [u] := by
          split_ifs at h
          · exact h
          · rw [hsnd] at h
            exact h
          · exact h
        rcases List.mem_append.mp hmem with hv | hv
        · exact Or.inl hv
        · simp only [List.mem_singleton] at hv
          subst hv
          exact Or.inr hzu

theorem request_json_trace_zone (net : Url → HttpResponse) (dp : List Nat → Option JValue)
    (eh : String) (u u' : Url) (h : u' ∈ (request_json net dp (some eh) u).2) :
    same_zone (⟨pyStripL u'.host.toList⟩ : String) eh = true := by
  rcases requestJsonAux_trace_zone net dp eh (MAX_REDIRECTS + 1) u [] u' h with hin | hz
  · cases hin
  · exact hz

theorem request_json_cross_zone (net : Url → HttpResponse) (dp : List Nat → Option JValue)
    (eh : String) (u : Url)
    (h : same_zone (⟨pyStripL u.host.toList⟩ : String) eh = false) :
    request_json net dp (some eh) u = (.fetchError "redirected to different host", []) := by
  show requestJsonAux net dp (some eh) (MAX_REDIRECTS + 1) u [] = _
  rw [show MAX_REDIRECTS + 1 = 5 + 1 from rfl]
  unfold requestJsonAux
  dsimp only
  rw [assert_fail_of_not_zone u eh h]

theorem fetchNodeinfoAttempt_trace_zone (net : Url → HttpResponse)
    (dp : List Nat → Option JValue) (expected scheme : String) (u' : Url)
    (h : u' ∈ (fetchNodeinfoAttempt net dp expected scheme).2) :
    same_zone (⟨pyStripL u'.host.toList⟩ : String) expected = true := by
  unfold fetchNodeinfoAttempt at h
  try dsimp only at h
  rcases hrq1 : request_json net dp (some expected)
      { scheme := scheme, host := expected, path := "/.well-known/nodeinfo" } with ⟨o1, tr1⟩
  rw [hrq1] at h
  have htr1 : ∀ v ∈ tr1, same_zone (⟨pyStripL v.host.toList⟩ : String) expected = true := by
    intro v hv
    exact request_json_trace_zone net dp expected _ v (by rw [hrq1]; exact hv)
  cases o1 with
  | fetchError m => exact htr1 u' h
  | ok payload =>
    cases payload <;> try exact htr1 u' h
    rename_i kvs
    try dsimp only at h
    rcases hlk : jGet kvs "links" with _ | _ | _ | _ | ls | _ <;> rw [hlk] at h <;>
      try exact htr1 u' h
    try dsimp only at h
    rcases hsel : select_latest_nodeinfo_link ls with _ | best <;> rw [hsel] at h
    · exact htr1 u' h
    · try dsimp only at h
      rcases hhref : jGet best "href" with _ | _ | _ | href | _ | _ <;> rw [hhref] at h <;>
        try exact htr1 u' h
      try dsimp only at h
      by_cases hemp : href = ""
      · rw [if_pos hemp] at h
        exact htr1 u' h
      · rw [if_neg hemp] at h
        try dsimp only at h
        rcases hassert : assert_safe_url_relaxed (parseUrlString href) expected with m | _ <;>
          rw [hassert] at h
        · exact htr1 u' h
        · try dsimp only at h
          rcases hrq2 : request_json net dp (some expected) (parseUrlString href) with ⟨o2, tr2⟩
          rw [hrq2] at h
          have htr2 : ∀ v ∈ tr2, same_zone (⟨pyStripL v.host.toList⟩ : String) expected = true := by
            intro v hv
            exact request_json_trace_zone net dp expected _ v (by rw [hrq2]; exact hv)
          cases o2 with
          | fetchError m =>
            rcases List.mem_append.mp h with hv | hv
            · exact htr1 u' hv
            · exact htr2 u' hv
          | ok doc =>
            cases doc <;> try dsimp only at h <;>
              rcases List.mem_append.mp h with hv | hv <;>
              first
                | exact htr1 u' hv
                | exact htr2 u' hv

theorem fetch_nodeinfo_trace_zone (net : Url → HttpResponse)
    (dp : List Nat → Option JValue) (host : String) (u' : Url)
    (h : u' ∈ (fetch_nodeinfo net dp host).2) :
    same_zone (⟨pyStripL u'.host.toList⟩ : String) (normalize_host host) = true := by
  unfold fetch_nodeinfo at h
  dsimp only at h
  rcases ha1 : fetchNodeinfoAttempt net dp (normalize_host host) "https" with ⟨r1, t1⟩
  rw [ha1] at h
  cases r1 with
  | ok res =>
    exact fetchNodeinfoAttempt_trace_zone net dp (normalize_host host) "https" u'
      (by rw [ha1]; exact h)
  | error m1 =>
    dsimp only at h
    rcases ha2 : fetchNodeinfoAttempt net dp (normalize_host host) "http" with ⟨r2, t2⟩
    rw [ha2] at h
    have ht1 : ∀ v ∈ t1, same_zone (⟨pyStripL v.host.toList⟩ : String) (normalize_host host) = true := by
      intro v hv
      exact fetchNodeinfoAttempt_trace_zone net dp (normalize_host host) "https" v
        (by rw [ha1]; exact hv)
    have ht2 : ∀ v ∈ t2, same_zone (⟨pyStripL v.host.toList⟩ : String) (normalize_host host) = true := by
      intro v hv
      exact fetchNodeinfoAttempt_trace_zone net dp (normalize_host host) "http" v
        (by rw [ha2]; exact hv)
    cases r2 <;> dsimp only at h <;>
      rcases List.mem_append.mp h with hv | hv <;>
      first
        | exact ht1 u' hv
        | exact ht2 u' hv

/-- C1: with an `expected_host`, every URL `request_json` actually sends
a request to is in the same zone as the expected host (initial URL and
every redirect hop); an initial URL outside the zone fails with the
cross-host `FetchError` before any request; and every URL requested
during `fetch_nodeinfo` — including the href selected from the NodeInfo
index, which is checked before it is fetched — is in the same zone as
the (normalised) requested host. -/
theorem C1_same_zone_enforcement :
    (∀ (net : Url → HttpResponse) (dp : List Nat → Option JValue) (eh : String) (u u' : Url),
      u' ∈ (request_json net dp (some eh) u).2 →
      same_zone (⟨pyStripL u'.host.toList⟩ : String) eh = true)
    ∧ (∀ (net : Url → HttpResponse) (dp : List Nat → Option JValue) (eh : String) (u : Url),
      same_zone (⟨pyStripL u.host.toList⟩ : String) eh = false →
      request_json net dp (some eh) u = (.fetchError "redirected to different host", []))
    ∧ (∀ (net : Url → HttpResponse) (dp : List Nat → Option JValue) (host : String) (u' : Url),
      u' ∈ (fetch_nodeinfo net dp host).2 →
      same_zone (⟨pyStripL u'.host.toList⟩ : String) (normalize_host host) = true) :=
  ⟨fun net dp eh u u' h => request_json_trace_zone net dp eh u u' h,
   fun net dp eh u h => request_json_cross_zone net dp eh u h,
   fun net dp host u' h => fetch_nodeinfo_trace_zone net dp host u' h⟩

theorem C1_same_zone_enforcement_witness :
    same_zone (⟨pyStripL urlEvil.host.toList⟩ : String) "example.org" = false ∧
    request_json netBig dpNone (some "example.org") urlEvil =
      (.fetchError "redirected to different host", []) :=
  ⟨by decide, C1_same_zone_enforcement.2.1 netBig dpNone "example.org" urlEvil (by decide)⟩
